import Mathlib

set_option maxRecDepth 4000

/-!
Verification development for the AI leaderboard scraper (`scraper.py`).

Modelling conventions (shallow embedding):
* Python/JS strings are modelled as `List Char` (`Str`).
* Python exceptions are modelled with `Except PyErr`; a `try/except` block is
  the total function `pyTryD` that replaces an error with the handler's value.
* Network and DOM interaction (`page.goto`, `page.content`, `requests.get`,
  and the document a `page.evaluate` script runs against) are external inputs
  supplied by an environment record; the extraction scripts themselves
  (`page.evaluate` bodies, regexes, validation) are embedded as Lean functions.
* JS numbers produced by `parseFloat` on `[\d.]+` matches are modelled as
  exact rationals (`Option ℚ`, `none` for NaN); none of the verified
  properties depends on floating-point rounding.
-/

/-- Characters of a Python/JS string, modelled as a list of characters. -/
abbrev Str := List Char

/-- Python exception payload (the message string). -/
abbrev PyErr := String

/-- A scraped candidate: `{"model": ..., "score": ...}` in the source. -/
structure CandidateResult where
  model : Str
  score : Str
  deriving DecidableEq, Repr

/-- Mapping from category name to candidate, as an insertion-ordered dict. -/
abbrev ResMap := List (String × CandidateResult)

/-- Top-level result dict of `LeaderboardScraper.run`. -/
abbrev Snapshot := List (String × ResMap)

/-- The "not available" marker `{"model": "—", "score": ""}`. -/
def naMarker : CandidateResult := ⟨"—".toList, []⟩

/-- Python `dict.get`: first binding of a key in an insertion-ordered dict. -/
def alook : List (String × α) → String → Option α
  | [], _ => none
  | (k, v) :: t, key => if k = key then some v else alook t key

/-- Python `try: body except: default` as a total function. -/
def pyTryD (body : Except PyErr α) (dflt : α) : α :=
  match body with
  | .ok a => a
  | .error _ => dflt

/-- Lower-case every character (JS `toLowerCase` / Python `.lower`, ASCII). -/
def lowL (s : Str) : Str := s.map Char.toLower

/-- Whitespace stripped by JS `trim` and Python `strip`. -/
def isWsC (c : Char) : Bool :=
  c = ' ' || c = '\t' || c = '\n' || c = '\r' || c = '\x0b' || c = '\x0c'

/-- Drop the longest suffix whose characters satisfy `p`. -/
def dropRightWhileC (p : Char → Bool) (s : Str) : Str :=
  (s.reverse.dropWhile p).reverse

/-- JS `String.prototype.trim` / Python `str.strip()`. -/
def jsTrim (s : Str) : Str := dropRightWhileC isWsC (s.dropWhile isWsC)

/-- JS `s.split("\n")[0]`: the characters before the first newline. -/
def firstLine (s : Str) : Str := s.takeWhile (fun c => c ≠ '\n')

/-- Does `s` start with `pat` (character-exact)? -/
def startsL : Str → Str → Bool
  | [], _ => true
  | _ :: _, [] => false
  | a :: pa, b :: sb => a == b && startsL pa sb

/-- Case-insensitive: does `s` start with `pat`? -/
def ciStarts (pat s : Str) : Bool := startsL (lowL pat) (lowL s)

/-- JS `String.prototype.includes` (character-exact substring test). -/
def hasSub (pat : Str) : Str → Bool
  | [] => pat.isEmpty
  | b :: t => startsL pat (b :: t) || hasSub pat t

/-- Greedy character class `{0,n}`: longest prefix of allowed chars, capped. -/
def takeUpTo (n : Nat) (p : Char → Bool) (s : Str) : Str :=
  (s.takeWhile p).take n

/-- Scan a string position by position (regex leftmost-match search): the
first suffix on which the position matcher `f` succeeds wins. -/
def scanFirst (f : Str → Option Str) : Str → Option Str
  | [] => f []
  | b :: t =>
    match f (b :: t) with
    | some r => some r
    | none => scanFirst f t

/-- The character class `[^\n,]` used by several extraction regexes. -/
def notNlComma (c : Char) : Bool := !(c = '\n' || c = ',')

/-- Position matcher for a regex `lit[^bad]{0,n}` (case-insensitive `lit`):
the capture is the matched slice of the literal plus up to `n` allowed
characters. -/
def litClassAt (lit : Str) (bad : List Char) (n : Nat) (s : Str) : Option Str :=
  if ciStarts lit s then
    some (s.take lit.length ++ takeUpTo n (fun c => !bad.contains c) (s.drop lit.length))
  else none

/-- Leftmost match of `lit[^bad]{0,n}` (case-insensitive) in `text`. -/
def findLitClass (lit : Str) (bad : List Char) (n : Nat) (text : Str) : Option Str :=
  scanFirst (litClassAt lit bad n) text

/-- Digit or dot, the class `[\d.]` of the score regexes. -/
def digitDot (c : Char) : Bool := c.isDigit || c = '.'

/-- Leftmost match of `/([\d.]+)/`: first maximal run of digits and dots. -/
def digitDotFind : Str → Option Str
  | [] => none
  | c :: t =>
    if digitDot c then some (c :: t.takeWhile digitDot)
    else digitDotFind t

/-- Leftmost match of `/(\d{3,4})/`: at the first position with at least
three digits, capture greedily up to four. -/
def findDigits34 : Str → Option Str
  | [] => none
  | c :: t =>
    if c.isDigit then
      let run := c :: t.takeWhile Char.isDigit
      if 3 ≤ run.length then some (run.take 4) else findDigits34 t
    else findDigits34 t

/-- Numeric value of a digit list. -/
def natOfDigits (s : Str) : Nat :=
  s.foldl (fun a c => 10 * a + (c.toNat - 48)) 0

/-- JS `parseFloat` on a `[\d.]+` match: optional integer digits, optional
dot, fraction digits; `none` models NaN (no digit parsed). Values are exact
rationals. -/
def jsNumOf (s : Str) : Option ℚ :=
  let ip := s.takeWhile Char.isDigit
  let rest := s.drop ip.length
  match rest with
  | '.' :: r =>
    let fp := r.takeWhile Char.isDigit
    if ip.isEmpty && fp.isEmpty then none
    else some ((natOfDigits ip : ℚ) + (natOfDigits fp : ℚ) / ((10 : ℚ) ^ fp.length))
  | _ => if ip.isEmpty then none else some ((natOfDigits ip : ℚ))

/-- JS `model.replace(/^#?\d+\s*/, "")`: strip an optional `#`, a leading
rank number and following whitespace; no change when the regex fails. -/
def stripLeadRank (s : Str) : Str :=
  match s with
  | '#' :: c :: t =>
    if c.isDigit then ((c :: t).dropWhile Char.isDigit).dropWhile isWsC else s
  | c :: t =>
    if c.isDigit then ((c :: t).dropWhile Char.isDigit).dropWhile isWsC else s
  | [] => []

/-! ## LMArena in-page extraction (`scrape_lmarena`'s `page.evaluate` body) -/

/-- Abstract document seen by the LMArena script: the first
`table tbody tr` row (its `td` texts), the texts of the model-link
candidates, the texts of the rank-classed elements, and the body text. -/
structure LmDom where
  firstRow : Option (List Str)
  links : List Str
  rankEls : List Str
  bodyText : Str
  deriving DecidableEq, Repr

/-- Option 1 score loop: first cell (from the second on) with a
`/(\d{3,4})/` match gives `digits + " Elo"`. -/
def lmScore : List Str → Str
  | [] => []
  | c :: rest =>
    match findDigits34 c with
    | some ds => ds ++ " Elo".toList
    | none => lmScore rest

/-- Option 1: first data row of the table; model from the first cell,
stripped of a leading rank; accepted only when longer than 2 characters. -/
def lmOpt1 (row? : Option (List Str)) : Option CandidateResult :=
  match row? with
  | none => none
  | some cells =>
    let raw := match cells.head? with
      | some c => firstLine (jsTrim c)
      | none => []
    let mdl := jsTrim (stripLeadRank raw)
    if !mdl.isEmpty && 2 < mdl.length then
      some ⟨mdl.take 40, lmScore (cells.drop 1)⟩
    else none

/-- Option 2: first link text of length in (3, 50) not containing "View". -/
def lmOpt2 : List Str → Option CandidateResult
  | [] => none
  | l :: rest =>
    let t := jsTrim l
    if !t.isEmpty && 3 < t.length && t.length < 50 && !hasSub ("View".toList) t then
      some ⟨t.take 40, []⟩
    else lmOpt2 rest

/-- Vendor-name alternation
`(?:gemini|gpt|claude|flux|veo|midjourney|dall-e|sora|kling)[^\n,]{0,30}`
tried at one position. -/
def vendorAt (s : Str) : Option Str :=
  (["gemini", "gpt", "claude", "flux", "veo", "midjourney", "dall-e", "sora",
    "kling"].map String.toList).findSome?
    (fun a =>
      if ciStarts a s then
        some (s.take a.length ++ takeUpTo 30 notNlComma (s.drop a.length))
      else none)

/-- Option 3: first rank-classed element whose text contains "1", is short,
and matches the vendor regex. -/
def lmOpt3 : List Str → Option CandidateResult
  | [] => none
  | e :: rest =>
    let t := jsTrim e
    if !t.isEmpty && hasSub ("1".toList) t && t.length < 100 then
      match scanFirst vendorAt t with
      | some m => some ⟨(jsTrim m).take 40, []⟩
      | none => lmOpt3 rest
    else lmOpt3 rest

/-- Position matcher for `/1\s+(lit[^\n,]{0,n})/i`. -/
def oneThenLitAt (lit : Str) (n : Nat) (s : Str) : Option Str :=
  match s with
  | '1' :: t =>
    let ws := t.takeWhile isWsC
    if ws.isEmpty then none
    else
      let r := t.drop ws.length
      if ciStarts lit r then
        some (r.take lit.length ++ takeUpTo n notNlComma (r.drop lit.length))
      else none
  | _ => none

/-- Option 4: body-text patterns `1\s+(vendor...)` tried in order. -/
def lmOpt4 (bodyText : Str) : Option CandidateResult :=
  (([("gemini", 25), ("gpt", 25), ("claude", 25), ("flux", 20), ("veo", 20),
     ("chatgpt", 25)] : List (String × Nat)).findSome?
    (fun pn => scanFirst (oneThenLitAt pn.1.toList pn.2) bodyText)).map
    (fun m => ⟨(jsTrim m).take 40, []⟩)

/-- The whole LMArena `page.evaluate` script: options 1-4 in order. -/
def lmarenaEval (d : LmDom) : Option CandidateResult :=
  match lmOpt1 d.firstRow with
  | some r => some r
  | none =>
    match lmOpt2 d.links with
    | some r => some r
    | none =>
      match lmOpt3 d.rankEls with
      | some r => some r
      | none => lmOpt4 d.bodyText

/-! ## LiveBench in-page extraction (`scrape_livebench`'s `page.evaluate`) -/

/-- Abstract `<table>`: header rows inside `thead` and body rows inside
`tbody`, each row as the list of its cell texts. -/
structure LbTable where
  theadRows : List (List Str)
  tbodyRows : List (List Str)
  deriving DecidableEq, Repr

/-- Abstract document for the LiveBench script. -/
structure LbDom where
  tables : List LbTable
  bodyText : Str
  deriving DecidableEq, Repr

/-- The keyword → category map of the script, in object-literal order. -/
def lbCatMap : List (String × String) :=
  [("global", "overall"), ("average", "overall"), ("reasoning", "reasoning"),
   ("coding", "coding"), ("agentic", "coding"), ("math", "math"),
   ("mathematics", "math")]

/-- Replace the value bound to `cat` (first binding). -/
def setVal : List (String × Nat) → String → Nat → List (String × Nat)
  | [], _, _ => []
  | (k, v) :: t, cat, idx =>
    if k = cat then (k, idx) :: t else (k, v) :: setVal t cat idx

/-- JS `if (h.includes(keyword) && !columnIndices[cat]) columnIndices[cat] = idx`:
an entry is (re)assigned when missing or (falsy) zero. -/
def lbAssign (l : List (String × Nat)) (cat : String) (idx : Nat) : List (String × Nat) :=
  match alook l cat with
  | none => l ++ [(cat, idx)]
  | some 0 => setVal l cat idx
  | some _ => l

/-- Build `columnIndices` from the lower-cased headers. -/
def lbColumnIndices (headers : List Str) : List (String × Nat) :=
  headers.enum.foldl
    (fun acc ih =>
      lbCatMap.foldl
        (fun acc2 kc =>
          if hasSub kc.1.toList ih.2 then lbAssign acc2 kc.2 ih.1 else acc2)
        acc)
    []

/-- Column of the model names: last header containing "model" or "name",
defaulting to 0. -/
def lbModelIdx (headers : List Str) : Nat :=
  headers.enum.foldl
    (fun acc ih =>
      if hasSub ("model".toList) ih.2 || hasSub ("name".toList) ih.2 then ih.1
      else acc)
    0

/-- Per-category row scan: keep the model of the row with the highest parsed
value in column `colIdx` (NaN rows and rows with too few cells skipped,
empty model names skipped). Returns `(model, score)`. -/
def lbBestRow (modelIdx colIdx : Nat) :
    List (List Str) → ℚ → Option (Str × Str) → Option (Str × Str)
  | [], _, best => best
  | row :: rest, maxV, best =>
    if row.length ≤ colIdx then lbBestRow modelIdx colIdx rest maxV best
    else
      let mname := firstLine (jsTrim (row.getD modelIdx []))
      let vtext := jsTrim (row.getD colIdx [])
      match digitDotFind vtext, mname with
      | some ds, _ :: _ =>
        match jsNumOf ds with
        | some v =>
          if maxV < v then lbBestRow modelIdx colIdx rest v (some (mname.take 40, ds))
          else lbBestRow modelIdx colIdx rest maxV best
        | none => lbBestRow modelIdx colIdx rest maxV best
      | _, _ => lbBestRow modelIdx colIdx rest maxV best

/-- The hardcoded last-resort names scanned for in the body text. -/
def lbFallbackNames : List String := ["Claude 4.5", "GPT-5.2", "Gemini 3"]

/-- Fallback of the LiveBench script: first known model name found in the
body text becomes the `overall` entry. -/
def lbFallbackScan (text : Str) : ResMap :=
  match lbFallbackNames.findSome?
    (fun m => if hasSub m.toList text then some m else none) with
  | some m => [("overall", ⟨m.toList, []⟩)]
  | none => []

/-- The whole LiveBench `page.evaluate` script. Early returns (no table, no
header row, no body rows) yield an empty result without the fallback scan;
only an empty extraction at the end triggers the fallback. -/
def livebenchExtract (d : LbDom) : ResMap :=
  if d.tables.isEmpty then []
  else
    match d.tables.find? (fun t => 2 < t.theadRows.length + t.tbodyRows.length) with
    | none => []
    | some mt =>
      match (match mt.theadRows.head? with
             | some hr => some hr
             | none => (mt.theadRows ++ mt.tbodyRows).head?) with
      | none => []
      | some hr =>
        let headers := hr.map (fun c => lowL (jsTrim c))
        let mIdx := lbModelIdx headers
        let rows := mt.tbodyRows
        if rows.isEmpty then []
        else
          let res := (lbColumnIndices headers).filterMap
            (fun ci =>
              (lbBestRow mIdx ci.2 rows (-1) none).map
                (fun ms => (ci.1, (⟨ms.1, ms.2⟩ : CandidateResult))))
          if res.isEmpty then lbFallbackScan d.bodyText else res

/-! ## OpenRouter in-page extraction (`scrape_openrouter`'s `page.evaluate`) -/

/-- Does `[\s-]?[\d.]+` match at the start of `t`? (The separator and
digit classes are disjoint, so the regex is deterministic here.) -/
def sepDigitsOk (t : Str) : Bool :=
  match t with
  | [] => false
  | c :: r =>
    if isWsC c || c = '-' then
      match r with
      | d :: _ => digitDot d
      | [] => false
    else digitDot c

/-- The text matched by `[\s-]?[\d.]+[^\n,]{0,25}` at the start of `t`
(greedy digit run, then up to 25 class characters). -/
def sepDigitsTail (t : Str) : Str :=
  match t with
  | [] => []
  | c :: r =>
    if isWsC c || c = '-' then
      [c] ++ r.takeWhile digitDot ++ takeUpTo 25 notNlComma (r.dropWhile digitDot)
    else t.takeWhile digitDot ++ takeUpTo 25 notNlComma (t.dropWhile digitDot)

/-- Position matcher for `/(gemini[\s-]?[\d.]+[^\n,]{0,25})/i`. -/
def geminiNumAt (s : Str) : Option Str :=
  if ciStarts ("gemini".toList) s && sepDigitsOk (s.drop 6) then
    some (s.take 6 ++ sepDigitsTail (s.drop 6))
  else none

/-- Does `[\d.]+` match at the start of `t`? -/
def digitsStartOk (t : Str) : Bool :=
  match t with
  | d :: _ => digitDot d
  | [] => false

/-- Position matcher for `/(gpt-[\d.]+[^\n,]{0,25})/i`. -/
def gptNumAt (s : Str) : Option Str :=
  if ciStarts ("gpt-".toList) s && digitsStartOk (s.drop 4) then
    some (s.take 4 ++ ((s.drop 4).takeWhile digitDot ++
      takeUpTo 25 notNlComma ((s.drop 4).dropWhile digitDot)))
  else none

/-- The character class complement list `[^\n,]` as a bad-character list. -/
def nlc : List Char := ['\n', ',']

/-- The whole OpenRouter `page.evaluate` script: six patterns in order over
the body text; the first match, trimmed and capped at 35 characters. -/
def orEval (text : Str) : Option CandidateResult :=
  (match scanFirst geminiNumAt text with
   | some m => some m
   | none =>
     match findLitClass ("claude".toList) nlc 30 text with
     | some m => some m
     | none =>
       match scanFirst gptNumAt text with
       | some m => some m
       | none =>
         match findLitClass ("flux".toList) nlc 20 text with
         | some m => some m
         | none =>
           match findLitClass ("dall-e".toList) nlc 15 text with
           | some m => some m
           | none => findLitClass ("midjourney".toList) nlc 15 text).map
    (fun m => ⟨(jsTrim m).take 35, []⟩)

/-! ## Artificial Analysis in-page extraction -/

/-- Literal patterns of the LLM leaderboard script. -/
def aaLits : List Str :=
  (["gemini 3", "gemini-3", "claude", "gpt-5", "gpt-4", "deepseek"].map String.toList)

/-- Literal patterns of the text-to-image script. -/
def aaImgLits : List Str :=
  (["flux", "dall-e", "midjourney", "stable diffusion", "imagen", "ideogram"].map
    String.toList)

/-- The LLM-leaderboard `page.evaluate` script: first literal pattern
(`p + '[^\n,]{0,25}'`) matching the body text, trimmed, capped at 35. -/
def aaEvalLLM (text : Str) : Option CandidateResult :=
  (aaLits.findSome? (fun p => findLitClass p nlc 25 text)).map
    (fun m => ⟨(jsTrim m).take 35, []⟩)

/-- The text-to-image `page.evaluate` script (`p + '[^\n,]{0,20}'`). -/
def aaEvalImg (text : Str) : Option CandidateResult :=
  (aaImgLits.findSome? (fun p => findLitClass p nlc 20 text)).map
    (fun m => ⟨(jsTrim m).take 35, []⟩)

/-! ## LLM-Stats extraction and `_clean_model_name` -/

/-- Character class complement list of `[^\n,<>—]` in `scrape_llm_stats`. -/
def lsBad : List Char := ['\n', ',', '<', '>', '—']

/-- Literal patterns for the non-image LLM-Stats categories. -/
def lsLitsLLM : List Str :=
  (["Gemini 3", "Gemini 2", "Claude", "GPT-5", "GPT-4"].map String.toList)

/-- Literal patterns for the image category. -/
def lsLitsImg : List Str :=
  (["Flux", "DALL-E", "Midjourney", "Stable Diffusion", "Imagen", "Ideogram"].map
    String.toList)

/-- Can `$` close a `.*$` that started right here? True when the rest of the
string past the non-newline run is empty or a single final newline. -/
def dollarOk (t : Str) : Bool :=
  let rest := t.dropWhile (fun c => c ≠ '\n')
  rest.isEmpty || rest == ['\n']

/-- Python `re.sub(trig + '.*$', '', s, flags=IGNORECASE)` (no MULTILINE/
DOTALL): at the leftmost case-insensitive occurrence of `trig` whose line
runs to the end of the string, everything from the occurrence up to a final
newline is removed. (The leftover is at most a final `"\n"`, which the
scraper's triggers can never match again.) -/
def subTrigAux (trig : Str) : Str → Str
  | [] => []
  | c :: t =>
    if ciStarts trig (c :: t) && dollarOk ((c :: t).drop trig.length) then
      ((c :: t).drop trig.length).dropWhile (fun b => b ≠ '\n')
    else c :: subTrigAux trig t

/-- Python `re.sub(r'\s*\|\s*.*$', '', s)` on the newline-free strings this
scraper cleans (matches come from the newline-excluding class `[^\n,<>—]`):
cut at the first `|`, also removing the whitespace run just before it. -/
def pipeCut (s : Str) : Str :=
  if s.contains '|' then dropRightWhileC isWsC (s.takeWhile (fun c => c ≠ '|'))
  else s

/-- Python `str.strip()`. -/
def pyStrip (s : Str) : Str := dropRightWhileC isWsC (s.dropWhile isWsC)

/-- Python `str.rstrip('—-|')`. -/
def rstripMark (s : Str) : Str :=
  dropRightWhileC (fun c => c = '—' || c = '-' || c = '|') s

/-- First cleaning trigger of `_clean_model_name`. -/
def trigA : Str := "— See how they compare".toList

/-- Second cleaning trigger of `_clean_model_name`. -/
def trigB : Str := "See how they compare".toList

/-- The `_clean_model_name` helper: strip "See how they compare" tails and
`| ...` tails, strip whitespace and trailing `—-|`, cap at 40 characters. -/
def cleanModelName (text : Str) : Str :=
  if text.isEmpty then []
  else
    let r1 := subTrigAux trigA text
    let r2 := subTrigAux trigB r1
    let r3 := pipeCut r2
    (pyStrip (rstripMark (pyStrip r3))).take 40

/-! ## Python-side adapters (`LeaderboardScraper` methods)

Each `View` structure gives the outcomes of the fallible page/network
operations an adapter performs — `Except.error` when the underlying call
throws (timeout, navigation failure, HTTP error), `Except.ok` with the page
data otherwise. -/

/-- Page interaction of one LMArena category: `goto`+waits, `content()`,
and `evaluate` (which, when it does not throw, runs the script on a DOM). -/
structure LmPageView where
  nav : Except PyErr Unit
  pageContent : Except PyErr Str
  dom : Except PyErr LmDom

/-- Cloudflare detection on the lower-cased page content. -/
def lmCloudflare (content : Str) : Bool :=
  let low := lowL content
  hasSub ("cloudflare".toList) low ||
    (hasSub ("security".toList) low && hasSub ("verify".toList) low)

/-- One category of `scrape_lmarena`: outer try around navigation and the
Cloudflare check, inner try around `page.evaluate`, Python-side validation
`if data and data.get("model") and len(data["model"]) > 2`. Every failure
path stores the `"—"` marker. -/
def lmCat (v : LmPageView) : CandidateResult :=
  pyTryD
    (do
      _ ← v.nav
      let c ← v.pageContent
      if lmCloudflare c then pure naMarker
      else
        pure (pyTryD
          (do
            let dom ← v.dom
            pure (match lmarenaEval dom with
              | some d =>
                if !d.model.isEmpty && 2 < d.model.length then d else naMarker
              | none => naMarker))
          naMarker))
    naMarker

/-- The six LMArena leaderboard categories, in dict order. -/
def lmCats : List String :=
  ["text", "coding", "vision", "text_to_image", "text_to_video", "image_edit"]

/-- The result mapping of `scrape_lmarena`: one entry per category. -/
def lmarenaResults (vs : String → LmPageView) : ResMap :=
  lmCats.map (fun n => (n, lmCat (vs n)))

/-- The `scrape_lmarena` adapter: never raises; one entry per category. -/
def scrape_lmarena (vs : String → LmPageView) : Except PyErr ResMap :=
  .ok (lmarenaResults vs)

/-- Page interaction of `scrape_livebench`: navigation, the inner
try-wrapped click, the scroll `evaluate`, and the extraction `evaluate`. -/
structure LbView where
  nav : Except PyErr Unit
  clickLb : Except PyErr Unit
  scroll : Except PyErr Unit
  dom : Except PyErr LbDom

/-- The result mapping of `scrape_livebench`: one outer try; a failed click
is swallowed (`except: pass`); any other failure yields the empty mapping. -/
def livebenchResults (v : LbView) : ResMap :=
  pyTryD
    (do
      _ ← v.nav
      let _ : Unit := pyTryD v.clickLb ()
      _ ← v.scroll
      let dom ← v.dom
      pure (livebenchExtract dom))
    []

/-- The `scrape_livebench` adapter: never raises. -/
def scrape_livebench (v : LbView) : Except PyErr ResMap :=
  .ok (livebenchResults v)

/-- Page interaction of one OpenRouter ranking page. -/
structure OrView where
  nav : Except PyErr Unit
  bodyText : Except PyErr Str

/-- The three OpenRouter categories, in dict order. -/
def orCats : List String := ["overall", "coding", "image"]

/-- One OpenRouter category: per-category try; `none` (absent) on a thrown
exception or when no pattern matches. -/
def orCat (v : OrView) : Option CandidateResult :=
  pyTryD
    (do
      _ ← v.nav
      let t ← v.bodyText
      pure (orEval t))
    none

/-- The result mapping of `scrape_openrouter`. -/
def openrouterResults (vs : String → OrView) : ResMap :=
  orCats.filterMap (fun c => (orCat (vs c)).map (fun d => (c, d)))

/-- The `scrape_openrouter` adapter: never raises. -/
def scrape_openrouter (vs : String → OrView) : Except PyErr ResMap :=
  .ok (openrouterResults vs)

/-- Page interaction of `scrape_artificial_analysis`: the LLM leaderboard
page and the text-to-image page. -/
structure AaView where
  navL : Except PyErr Unit
  textL : Except PyErr Str
  navI : Except PyErr Unit
  textI : Except PyErr Str

/-- The first try block of `scrape_artificial_analysis`: the LLM-page result
is copied to `overall`, `coding` and `math` (or nothing on failure). -/
def aaBase (v : AaView) : ResMap :=
  pyTryD
    (do
      _ ← v.navL
      let t ← v.textL
      pure (match aaEvalLLM t with
        | some d => [("overall", d), ("coding", d), ("math", d)]
        | none => []))
    []

/-- The second try block of `scrape_artificial_analysis`: the text-to-image
page (or nothing on failure). -/
def aaImg (v : AaView) : ResMap :=
  pyTryD
    (do
      _ ← v.navI
      let t ← v.textI
      pure (match aaEvalImg t with
        | some d => [("image", d)]
        | none => []))
    []

/-- The result mapping of `scrape_artificial_analysis`: both try blocks in
insertion order. -/
def aaResults (v : AaView) : ResMap := aaBase v ++ aaImg v

/-- The `scrape_artificial_analysis` adapter: never raises. -/
def scrape_artificial_analysis (v : AaView) : Except PyErr ResMap :=
  .ok (aaResults v)

/-- One `requests.get`: the HTTP status code and the response text. -/
structure ReqView where
  resp : Except PyErr (Nat × Str)

/-- The four LLM-Stats categories, in dict order. -/
def lsCats : List String := ["overall", "coding", "math", "image"]

/-- One category of `scrape_llm_stats`: on status 200, the first literal
pattern (`rf'({p}[^\n,<>—]{0,20})'`, case-insensitive) that matches gives
the cleaned model; otherwise the category is absent. -/
def lsCat (cat : String) (v : ReqView) : Option CandidateResult :=
  pyTryD
    (do
      let st ← v.resp
      if st.1 = 200 then
        let pats := if cat = "image" then lsLitsImg else lsLitsLLM
        pure ((pats.findSome? (fun p => findLitClass p lsBad 20 st.2)).map
          (fun m => ⟨cleanModelName m, []⟩))
      else pure none)
    none

/-- The result mapping of `scrape_llm_stats`. -/
def llmStatsResults (vs : String → ReqView) : ResMap :=
  lsCats.filterMap (fun c => (lsCat c (vs c)).map (fun d => (c, d)))

/-- The `scrape_llm_stats` adapter (plain `requests`, no browser): never
raises. -/
def scrape_llm_stats (vs : String → ReqView) : Except PyErr ResMap :=
  .ok (llmStatsResults vs)

/-! ## Aggregation (`LeaderboardScraper.run`) and entry point (`main`) -/

/-- Everything a full run interacts with: browser lifecycle operations
(`launch`, `new_page`, `close`, which are not wrapped in any try), the five
adapters' page interactions, and the two clock readings `generate_html`
formats (`date_str` and the footer timestamp). -/
structure Env where
  launch : Except PyErr Unit
  newPage : Except PyErr Unit
  lmarena : String → LmPageView
  livebench : LbView
  openrouter : String → OrView
  aa : AaView
  closeBrowser : Except PyErr Unit
  llmStats : String → ReqView
  dateStr : Str
  footDate : Str

/-- The five top-level keys `run` assigns, in assignment order. -/
def runSources : List String :=
  ["lmarena", "livebench", "openrouter", "artificial_analysis", "llm_stats"]

/-- The `run` method: browser ops can raise (they are unguarded); the five
adapters are called in order and their mappings stored under the source
names. Note: the timestamped `self.data` dict from `__init__` is never
touched — the returned dict is built fresh with only these five keys. -/
def run (env : Env) : Except PyErr Snapshot := do
  _ ← env.launch
  _ ← env.newPage
  let lm ← scrape_lmarena env.lmarena
  let lb ← scrape_livebench env.livebench
  let orr ← scrape_openrouter env.openrouter
  let aam ← scrape_artificial_analysis env.aa
  _ ← env.closeBrowser
  let ls ← scrape_llm_stats env.llmStats
  pure [("lmarena", lm), ("livebench", lb), ("openrouter", orr),
        ("artificial_analysis", aam), ("llm_stats", ls)]

/-! ## Presenter (`generate_html`) -/

/-- Company colour class chosen by substring tests on the lower-cased
model name. -/
def colorClass (m : Str) : Str :=
  let ml := lowL m
  if hasSub ("gemini".toList) ml || hasSub ("google".toList) ml then ("google".toList)
  else if hasSub ("gpt".toList) ml || hasSub ("openai".toList) ml then ("openai".toList)
  else if hasSub ("claude".toList) ml || hasSub ("anthropic".toList) ml then
    "anthropic".toList
  else if hasSub ("llama".toList) ml || hasSub ("meta".toList) ml then ("meta".toList)
  else if hasSub ("deepseek".toList) ml then ("deepseek".toList)
  else if hasSub ("flux".toList) ml then ("flux".toList)
  else if hasSub ("midjourney".toList) ml then ("midjourney".toList)
  else if hasSub ("dall-e".toList) ml || hasSub ("dalle".toList) ml then
    "openai".toList
  else if hasSub ("stable".toList) ml || hasSub ("stability".toList) ml then
    "stability".toList
  else if hasSub ("ideogram".toList) ml then ("ideogram".toList)
  else ("default".toList)

/-- The distinguished empty cell `<td class="na">—</td>`. -/
def naCell : Str := "<td class=\"na\">—</td>".toList

/-- The `cell` helper of `generate_html`: missing or empty models render as
the marker cell; otherwise the model text (capped at 35 characters) and the
optional score are interpolated into the markup directly, with no escaping. -/
def cell (source : ResMap) (key : String) : Str :=
  let item := alook source key
  let m : Str := match item with
    | none => "—".toList
    | some c => if c.model.isEmpty then ("—".toList) else c.model
  let s : Str := match item with
    | none => []
    | some c => c.score
  if m = "—".toList then naCell
  else
    let scoreHtml : Str :=
      if s.isEmpty then []
      else "<span class=\"score\">".toList ++ s ++ "</span>".toList
    "<td><span class=\"model ".toList ++ colorClass m ++ "\">".toList ++
      m.take 35 ++ "</span>".toList ++ scoreHtml ++ "</td>".toList

/-- Newline plus the 8-space indent between cells in the `rows` template. -/
def nl8 : Str := "\n        ".toList

/-- Newline plus the 4-space indent between rows in the `rows` template. -/
def nl4 : Str := "\n    ".toList

/-- The `rows` f-string of `generate_html`. -/
def htmlRows (lmarena livebench openrouter aa llm_stats : ResMap) : Str :=
  nl4 ++ "<tr>".toList ++
  nl8 ++ "<td>🗣️ Overall/Chat</td>".toList ++
  nl8 ++ cell lmarena ("text") ++
  nl8 ++ cell livebench ("overall") ++
  nl8 ++ cell openrouter ("overall") ++
  nl8 ++ cell aa ("overall") ++
  nl8 ++ cell llm_stats ("overall") ++
  nl4 ++ "</tr>".toList ++
  nl4 ++ "<tr>".toList ++
  nl8 ++ "<td>💻 Coding</td>".toList ++
  nl8 ++ cell lmarena ("coding") ++
  nl8 ++ cell livebench ("coding") ++
  nl8 ++ cell openrouter ("coding") ++
  nl8 ++ cell aa ("coding") ++
  nl8 ++ cell llm_stats ("coding") ++
  nl4 ++ "</tr>".toList ++
  nl4 ++ "<tr>".toList ++
  nl8 ++ "<td>🧮 Math</td>".toList ++
  nl8 ++ naCell ++
  nl8 ++ cell livebench ("math") ++
  nl8 ++ naCell ++
  nl8 ++ cell aa ("math") ++
  nl8 ++ cell llm_stats ("math") ++
  nl4 ++ "</tr>".toList ++
  nl4 ++ "<tr>".toList ++
  nl8 ++ "<td>🧠 Reasoning</td>".toList ++
  nl8 ++ cell lmarena ("text") ++
  nl8 ++ cell livebench ("reasoning") ++
  nl8 ++ naCell ++
  nl8 ++ naCell ++
  nl8 ++ naCell ++
  nl4 ++ "</tr>".toList ++
  nl4 ++ "<tr>".toList ++
  nl8 ++ "<td>🖼️ Image</td>".toList ++
  nl8 ++ cell lmarena ("text_to_image") ++
  nl8 ++ naCell ++
  nl8 ++ cell openrouter ("image") ++
  nl8 ++ cell aa ("image") ++
  nl8 ++ cell llm_stats ("image") ++
  nl4 ++ "</tr>".toList ++
  nl4

/-- Document template, part before the `<title>` date interpolation. -/
def htmlPartA : Str :=
  ("<!DOCTYPE html>\n<html lang=\"es\">\n<head>\n    <meta charset=\"UTF-8\">\n" ++
   "    <meta name=\"viewport\" content=\"width=device-width, initial-scale=1.0\">\n" ++
   "    <title>AI Leaderboard - ").toList

/-- Document template, from the title to the subtitle date interpolation
(the full stylesheet; `\x7b`/`\x7d` are the literal CSS braces). -/
def htmlPartB : Str :=
  ("</title>\n    <style>\n" ++
   "        * \x7b margin: 0; padding: 0; box-sizing: border-box; \x7d\n" ++
   "        body \x7b font-family: \x27Segoe UI\x27, sans-serif; background: linear-gradient(135deg, #1a1a2e, #16213e); min-height: 100vh; padding: 20px; color: #fff; \x7d\n" ++
   "        .container \x7b max-width: 1400px; margin: 0 auto; \x7d\n" ++
   "        h1 \x7b text-align: center; margin-bottom: 10px; font-size: 2rem; background: linear-gradient(90deg, #00d4ff, #7b2cbf); -webkit-background-clip: text; -webkit-text-fill-color: transparent; \x7d\n" ++
   "        .subtitle \x7b text-align: center; color: #888; margin-bottom: 30px; \x7d\n" ++
   "        .auto-badge \x7b display: inline-block; background: #22c55e; color: #fff; padding: 4px 12px; border-radius: 20px; font-size: 0.75rem; margin-left: 10px; -webkit-text-fill-color: #fff; \x7d\n" ++
   "        .table-wrapper \x7b overflow-x: auto; border-radius: 12px; box-shadow: 0 10px 40px rgba(0,0,0,0.4); \x7d\n" ++
   "        table \x7b width: 100%; border-collapse: collapse; background: #1e1e2f; \x7d\n" ++
   "        th, td \x7b padding: 14px 12px; text-align: center; border: 1px solid #2d2d44; font-size: 0.85rem; \x7d\n" ++
   "        th \x7b background: linear-gradient(180deg, #2d2d44, #1e1e2f); color: #00d4ff; font-weight: 600; text-transform: uppercase; \x7d\n" ++
   "        th:first-child \x7b background: linear-gradient(180deg, #3d3d5c, #2d2d44); color: #fff; min-width: 140px; \x7d\n" ++
   "        td:first-child \x7b background: #252538; font-weight: 600; color: #b8b8d1; text-align: left; padding-left: 16px; \x7d\n" ++
   "        tr:hover td \x7b background: #2a2a40; \x7d\n" ++
   "        tr:hover td:first-child \x7b background: #2d2d48; \x7d\n" ++
   "        .model \x7b font-weight: 700; \x7d\n" ++
   "        .model.google \x7b color: #4285F4; \x7d\n" ++
   "        .model.openai \x7b color: #10A37F; \x7d\n" ++
   "        .model.anthropic \x7b color: #D97706; \x7d\n" ++
   "        .model.meta \x7b color: #0866FF; \x7d\n" ++
   "        .model.deepseek \x7b color: #7C3AED; \x7d\n" ++
   "        .model.flux \x7b color: #EC4899; \x7d\n" ++
   "        .model.midjourney \x7b color: #FF6B6B; \x7d\n" ++
   "        .model.stability \x7b color: #8B5CF6; \x7d\n" ++
   "        .model.ideogram \x7b color: #14B8A6; \x7d\n" ++
   "        .model.default \x7b color: #00d4ff; \x7d\n" ++
   "        .score \x7b font-size: 0.75rem; color: #888; display: block; margin-top: 2px; \x7d\n" ++
   "        .na \x7b color: #555; font-style: italic; \x7d\n" ++
   "        .legend \x7b margin-top: 30px; padding: 20px; background: #1e1e2f; border-radius: 12px; display: grid; grid-template-columns: repeat(auto-fit, minmax(200px, 1fr)); gap: 15px; \x7d\n" ++
   "        .legend h3 \x7b grid-column: 1 / -1; color: #00d4ff; margin-bottom: 10px; \x7d\n" ++
   "        .legend-item \x7b display: flex; align-items: center; gap: 10px; font-size: 0.85rem; \x7d\n" ++
   "        .legend-item a \x7b color: #888; text-decoration: none; \x7d\n" ++
   "        .legend-item a:hover \x7b color: #00d4ff; \x7d\n" ++
   "        .footer \x7b text-align: center; margin-top: 20px; color: #555; font-size: 0.8rem; \x7d\n" ++
   "    </style>\n</head>\n<body>\n    <div class=\"container\">\n" ++
   "        <h1>🏆 Líderes de IA por Plataforma <span class=\"auto-badge\">Auto-actualizado</span></h1>\n" ++
   "        <p class=\"subtitle\">Última actualización: ").toList

/-- Document template, from the subtitle to the `rows` interpolation. -/
def htmlPartC : Str :=
  ("</p>\n        \n        <div class=\"table-wrapper\">\n            <table>\n" ++
   "                <thead>\n                    <tr>\n" ++
   "                        <th>Categoría</th>\n" ++
   "                        <th>LMArena</th>\n" ++
   "                        <th>LiveBench</th>\n" ++
   "                        <th>OpenRouter</th>\n" ++
   "                        <th>Artificial Analysis</th>\n" ++
   "                        <th>LLM-Stats</th>\n" ++
   "                    </tr>\n                </thead>\n                <tbody>\n" ++
   "                    ").toList

/-- Document template, from the table to the footer date interpolation. -/
def htmlPartD : Str :=
  ("\n                </tbody>\n            </table>\n        </div>\n        \n" ++
   "        <div class=\"legend\">\n            <h3>🔗 Enlaces</h3>\n" ++
   "            <div class=\"legend-item\"><a href=\"https://lmarena.ai/leaderboard\" target=\"_blank\">🏟️ LMArena</a></div>\n" ++
   "            <div class=\"legend-item\"><a href=\"https://livebench.ai\" target=\"_blank\">📊 LiveBench</a></div>\n" ++
   "            <div class=\"legend-item\"><a href=\"https://openrouter.ai/rankings\" target=\"_blank\">🌐 OpenRouter</a></div>\n" ++
   "            <div class=\"legend-item\"><a href=\"https://artificialanalysis.ai/leaderboards/models\" target=\"_blank\">📈 Artificial Analysis</a></div>\n" ++
   "            <div class=\"legend-item\"><a href=\"https://llm-stats.com/\" target=\"_blank\">📉 LLM-Stats</a></div>\n" ++
   "        </div>\n        \n        <p class=\"footer\">🤖 Generado ").toList

/-- Document template, the closing part. -/
def htmlPartE : Str :=
  (" Argentina | \"—\" = no disponible</p>\n    </div>\n</body>\n</html>").toList

/-- The `generate_html` function. Its two internal clock readings (the
formatted `date_str` and the footer timestamp) are passed in as inputs. -/
def generate_html (dateStr footDate : Str) (data : Snapshot) : Str :=
  let lmarena := (alook data ("lmarena")).getD []
  let livebench := (alook data ("livebench")).getD []
  let openrouter := (alook data ("openrouter")).getD []
  let aa := (alook data ("artificial_analysis")).getD []
  let llm_stats := (alook data ("llm_stats")).getD []
  htmlPartA ++ dateStr ++ htmlPartB ++ dateStr ++ htmlPartC ++
    htmlRows lmarena livebench openrouter aa llm_stats ++
    htmlPartD ++ footDate ++ htmlPartE

/-- Content written to one output file. -/
inductive FileData where
  | jsonData (s : Snapshot)
  | textData (h : Str)
  deriving DecidableEq

/-- Result of a completed `main`: the files written (path order as in the
source) and the process exit code. -/
structure MainOutcome where
  files : List (String × FileData)
  exitCode : Nat
  deriving DecidableEq

/-- The `main` entry point (the source's name `main` is reserved in Lean):
one full `run`, then both output files are written (`json.dump` of the
snapshot, and the rendered document); a normal return exits the process
with code 0. -/
def mainEntry (env : Env) : Except PyErr MainOutcome := do
  let data ← run env
  pure ⟨[("output/latest_data.json", .jsonData data),
         ("output/ai_leaderboard_comparison.html",
          .textData (generate_html env.dateStr env.footDate data))], 0⟩

/-! ## Characterizations and concrete environments used by the theorems -/

/-- The snapshot `run` returns when the browser operations succeed. -/
def runSnapshot (env : Env) : Snapshot :=
  [("lmarena", lmarenaResults env.lmarena),
   ("livebench", livebenchResults env.livebench),
   ("openrouter", openrouterResults env.openrouter),
   ("artificial_analysis", aaResults env.aa),
   ("llm_stats", llmStatsResults env.llmStats)]

/-- The candidates the LiveBench script can fall back to. -/
def lbFallbackCands : List CandidateResult :=
  lbFallbackNames.map (fun m => ⟨m.toList, []⟩)

/-- The value stored for `(src, cat)` is a result the source's own
extraction produced from the page data (for LMArena: one that also passed
the Python-side length validation). -/
def adapterExtracted (env : Env) (src cat : String) (r : CandidateResult) : Prop :=
  (src = "lmarena" ∧ ∃ dom, (env.lmarena cat).dom = Except.ok dom ∧
    lmarenaEval dom = some r ∧ 2 < r.model.length) ∨
  (src = "livebench" ∧ ∃ dom, env.livebench.dom = Except.ok dom ∧
    (cat, r) ∈ livebenchExtract dom) ∨
  (src = "openrouter" ∧ ∃ t, (env.openrouter cat).bodyText = Except.ok t ∧
    orEval t = some r) ∨
  (src = "artificial_analysis" ∧ ∃ t,
    (env.aa.textL = Except.ok t ∧ aaEvalLLM t = some r) ∨
    (env.aa.textI = Except.ok t ∧ aaEvalImg t = some r)) ∨
  (src = "llm_stats" ∧ ∃ st text p m,
    (env.llmStats cat).resp = Except.ok (st, text) ∧ st = 200 ∧
    p ∈ (if cat = "image" then lsLitsImg else lsLitsLLM) ∧
    findLitClass p lsBad 20 text = some m ∧ r = ⟨cleanModelName m, []⟩)

/-- An LMArena page view whose every operation throws. -/
def lmFailV : LmPageView := ⟨Except.error ("net"), Except.error ("net"), Except.error ("net")⟩

/-- A LiveBench view whose every operation throws. -/
def lbFailV : LbView :=
  ⟨Except.error ("net"), Except.error ("net"), Except.error ("net"), Except.error ("net")⟩

/-- An OpenRouter view whose every operation throws. -/
def orFailV : OrView := ⟨Except.error ("net"), Except.error ("net")⟩

/-- An Artificial Analysis view whose every operation throws. -/
def aaFailV : AaView :=
  ⟨Except.error ("net"), Except.error ("net"), Except.error ("net"), Except.error ("net")⟩

/-- A `requests.get` that times out. -/
def reqFailV : ReqView := ⟨Except.error ("timeout")⟩

/-- A run environment in which the browser works but every page fetch and
every HTTP request of every adapter fails. -/
def envFail : Env :=
  ⟨Except.ok (), Except.ok (), fun _ => lmFailV, lbFailV, fun _ => orFailV,
   aaFailV, Except.ok (), fun _ => reqFailV, [], []⟩

/-- The snapshot `run envFail` produces: LMArena full of markers, the other
sources present with empty mappings. -/
def snapFail : Snapshot :=
  [("lmarena", lmCats.map (fun n => (n, naMarker))), ("livebench", []),
   ("openrouter", []), ("artificial_analysis", []), ("llm_stats", [])]

/-- An LMArena page view that yields a link with text "Gemini 3 Pro". -/
def lmAcceptV : LmPageView :=
  ⟨Except.ok (), Except.ok [], Except.ok ⟨none, ["Gemini 3 Pro".toList], [], []⟩⟩

/-- A LiveBench view whose page shows one leaderboard table whose first data
row names the model "1" with a coding score of 50. -/
def lbCexV : LbView :=
  ⟨Except.ok (), Except.ok (), Except.ok (),
   Except.ok ⟨[⟨[["model".toList, "coding".toList], ["x".toList]],
               [["1".toList, "50".toList]]⟩], []⟩⟩

/-- An OpenRouter view whose page text mentions a Claude model. -/
def orAcceptV : OrView := ⟨Except.ok (), Except.ok ("see Claude Opus 9 win".toList)⟩

/-- An Artificial Analysis view whose LLM page mentions a GPT model and
whose image page is unreachable. -/
def aaAcceptV : AaView :=
  ⟨Except.ok (), Except.ok ("top is gpt-5.3 high".toList),
   Except.error ("net"), Except.error ("net")⟩

/-- Lower-cased literals whose matches survive a surrounding `trim` with the
literal intact: nonempty, no whitespace at either end. -/
def litBoundsOk (ll : Str) : Bool :=
  match ll, ll.reverse with
  | c :: _, d :: _ => !isWsC c && !isWsC d
  | _, _ => false

/-- Lower-cased literals whose matches survive `_clean_model_name` with the
literal intact: trim-stable, free of `|`, not ending in a stripped mark, and
never overlapping a cleaning trigger from inside the literal. -/
def litCleanOk (ll : Str) : Bool :=
  !ll.isEmpty && !isWsC ll.headI && !isWsC ll.reverse.headI &&
  !(ll.reverse.headI = '—' || ll.reverse.headI = '-' || ll.reverse.headI = '|') &&
  !(ll.any (fun b => b == '|')) && decide (ll.length ≤ 20) &&
  ((List.range ll.length).all (fun j => !startsL (ll.drop j) (lowL trigA))) &&
  ((List.range ll.length).all (fun j => !startsL (ll.drop j) (lowL trigB)))

/-! ## General lemmas about the string primitives -/

theorem startsL_iff (p : Str) : ∀ s, startsL p s = true ↔ ∃ t, s = p ++ t := by
  induction p with
  | nil => intro s; simp [startsL]
  | cons a pa ih =>
    intro s
    cases s with
    | nil =>
      simp only [startsL]
      constructor
      · intro h; cases h
      · rintro ⟨t, ht⟩; cases ht
    | cons b sb =>
      simp only [startsL, Bool.and_eq_true, beq_iff_eq]
      rw [ih sb]
      constructor
      · rintro ⟨rfl, t, rfl⟩; exact ⟨t, rfl⟩
      · rintro ⟨t, ht⟩
        injection ht with h1 h2
        exact ⟨h1.symm, t, h2⟩

theorem startsL_of_append (a : Str) :
    ∀ t b : Str, startsL t (a ++ b) = true → a.length ≤ t.length →
      startsL a t = true := by
  induction a with
  | nil => intro t b _ _; simp [startsL]
  | cons x a' ih =>
    intro t b h hlen
    cases t with
    | nil => simp at hlen
    | cons y t' =>
      simp only [List.cons_append, startsL, Bool.and_eq_true, beq_iff_eq] at h ⊢
      refine ⟨h.1.symm, ih t' b h.2 ?_⟩
      simpa using hlen

theorem scanFirst_some (f : Str → Option Str) :
    ∀ text r, scanFirst f text = some r → ∃ s, f s = some r := by
  intro text
  induction text with
  | nil => intro r h; exact ⟨[], h⟩
  | cons b t ih =>
    intro r h
    rw [scanFirst] at h
    cases hf : f (b :: t) with
    | some v =>
      rw [hf] at h
      change some v = some r at h
      exact ⟨b :: t, by rw [hf]; exact h⟩
    | none =>
      rw [hf] at h
      change scanFirst f t = some r at h
      exact ih r h

theorem ciStarts_parts (lit s : Str) (h : ciStarts lit s = true) :
    lowL (s.take lit.length) = lowL lit ∧ (s.take lit.length).length = lit.length := by
  unfold ciStarts at h
  obtain ⟨t, ht⟩ := (startsL_iff (lowL lit) (lowL s)).1 h
  have hlen : s.length = lit.length + t.length := by
    have := congrArg List.length ht
    simpa [lowL] using this
  constructor
  · have : lowL (s.take lit.length) = (lowL s).take lit.length := by
      simp [lowL, List.map_take]
    rw [this, ht]
    have hl : (lowL lit).length = lit.length := by simp [lowL]
    rw [← hl, List.take_left]
  · simp [List.length_take]
    omega

theorem dropWhile_append_stop (p : Char → Bool) (c : Char) (t : Str)
    (hc : p c = false) :
    ∀ x : Str, (x ++ c :: t).dropWhile p = x.dropWhile p ++ c :: t := by
  intro x
  induction x with
  | nil => simp [List.dropWhile_cons, hc]
  | cons a x' ih =>
    simp only [List.cons_append, List.dropWhile_cons]
    cases ha : p a with
    | true => simpa [ha] using ih
    | false => simp [ha]

theorem dropRightWhile_append (p : Char → Bool) (a b : Str) (c : Char) (cs : Str)
    (ha : a.reverse = c :: cs) (hc : p c = false) :
    dropRightWhileC p (a ++ b) = a ++ dropRightWhileC p b := by
  unfold dropRightWhileC
  rw [List.reverse_append, ha, dropWhile_append_stop p c cs hc b.reverse,
    List.reverse_append]
  have : (c :: cs).reverse = a := by
    rw [← ha, List.reverse_reverse]
  rw [this]

theorem takeWhile_append_all (p : Char → Bool) (y : Str) :
    ∀ x : Str, (∀ c ∈ x, p c = true) → (x ++ y).takeWhile p = x ++ y.takeWhile p := by
  intro x
  induction x with
  | nil => simp
  | cons a x' ih =>
    intro hall
    have ha : p a = true := hall a (by simp)
    simp only [List.cons_append, List.takeWhile_cons, ha, if_true]
    rw [ih (fun c hc => hall c (by simp [hc]))]

theorem toLower_ws (c : Char) (h : isWsC c = true) : c.toLower = c := by
  simp only [isWsC, Bool.or_eq_true, decide_eq_true_eq] at h
  rcases h with ((((h | h) | h) | h) | h) | h <;> subst h <;> decide

theorem notWs_of_lower (c d : Char) (hl : c.toLower = d) (hd : isWsC d = false) :
    isWsC c = false := by
  by_contra hne
  have hc : isWsC c = true := by
    cases hx : isWsC c with
    | true => rfl
    | false => exact absurd hx hne
  have : c = d := by rw [← hl, toLower_ws c hc]
  rw [← this] at hd
  rw [hc] at hd
  cases hd

theorem toLower_mark (c : Char) (h : (c = '—' || c = '-' || c = '|') = true) :
    c.toLower = c := by
  simp only [Bool.or_eq_true, decide_eq_true_eq] at h
  rcases h with (h | h) | h <;> subst h <;> decide

theorem notMark_of_lower (c d : Char) (hl : c.toLower = d)
    (hd : (d = '—' || d = '-' || d = '|') = false) :
    (c = '—' || c = '-' || c = '|') = false := by
  cases hx : (c = '—' || c = '-' || c = '|') with
  | false => rfl
  | true =>
    have hcd : c = d := by rw [← hl, toLower_mark c hx]
    subst hcd
    rw [hx] at hd
    cases hd

/-! ## Prefix preservation through trimming and cleaning -/

theorem trimlike_append (pfx rest : Str) (c0 : Char) (p0 : Str) (hp : pfx = c0 :: p0)
    (h0 : isWsC c0 = false) (c1 : Char) (p1 : Str) (hrev : pfx.reverse = c1 :: p1)
    (h1 : isWsC c1 = false) :
    dropRightWhileC isWsC ((pfx ++ rest).dropWhile isWsC) =
      pfx ++ dropRightWhileC isWsC rest := by
  have hdw : (pfx ++ rest).dropWhile isWsC = pfx ++ rest := by
    rw [hp, List.cons_append, List.dropWhile_cons_of_neg (by simp [h0])]
  rw [hdw, dropRightWhile_append isWsC pfx rest c1 p1 hrev h1]

theorem lowL_rev_parts (pfx ll : Str) (hlow : lowL pfx = ll) (d : Char) (dr : Str)
    (hll : ll.reverse = d :: dr) :
    ∃ c1 p1, pfx.reverse = c1 :: p1 ∧ c1.toLower = d := by
  have : lowL pfx.reverse = d :: dr := by
    rw [lowL, List.map_reverse, ← lowL, hlow, hll]
  cases hpr : pfx.reverse with
  | nil => rw [hpr] at this; simp [lowL] at this
  | cons c1 p1 =>
    rw [hpr] at this
    simp only [lowL, List.map_cons, List.cons.injEq] at this
    exact ⟨c1, p1, rfl, this.1⟩

theorem lowL_head_parts (pfx ll : Str) (hlow : lowL pfx = ll) (c : Char) (cr : Str)
    (hll : ll = c :: cr) :
    ∃ c0 p0, pfx = c0 :: p0 ∧ c0.toLower = c := by
  cases hpx : pfx with
  | nil => rw [hpx] at hlow; rw [hll] at hlow; simp [lowL] at hlow
  | cons c0 p0 =>
    rw [hpx, hll] at hlow
    simp only [lowL, List.map_cons, List.cons.injEq] at hlow
    exact ⟨c0, p0, rfl, hlow.1⟩

theorem litBoundsOk_elim (ll : Str) (hb : litBoundsOk ll = true) :
    ∃ c cr d dr, ll = c :: cr ∧ ll.reverse = d :: dr ∧
      isWsC c = false ∧ isWsC d = false := by
  cases ll with
  | nil => simp [litBoundsOk] at hb
  | cons c cr =>
    cases hlr : (c :: cr).reverse with
    | nil => simp at hlr
    | cons d dr =>
      unfold litBoundsOk at hb
      rw [hlr] at hb
      simp only [Bool.and_eq_true, Bool.not_eq_true'] at hb
      exact ⟨c, cr, d, dr, rfl, by simp [hlr], hb.1, hb.2⟩

theorem trim_append_of_bounds (pfx rest ll : Str)
    (hlow : lowL pfx = ll) (hb : litBoundsOk ll = true) :
    jsTrim (pfx ++ rest) = pfx ++ dropRightWhileC isWsC rest := by
  obtain ⟨c, cr, d, dr, hll, hlr, hwc, hwd⟩ := litBoundsOk_elim ll hb
  obtain ⟨c0, p0, hp, hc0⟩ := lowL_head_parts pfx ll hlow c cr hll
  obtain ⟨c1, p1, hrev, hc1⟩ := lowL_rev_parts pfx ll hlow d dr hlr
  exact trimlike_append pfx rest c0 p0 hp
    (notWs_of_lower c0 c hc0 hwc) c1 p1 hrev (notWs_of_lower c1 d hc1 hwd)

theorem trimTake_len (pfx rest ll : Str) (k : Nat)
    (hlow : lowL pfx = ll) (hb : litBoundsOk ll = true) :
    min k pfx.length ≤ ((jsTrim (pfx ++ rest)).take k).length := by
  rw [trim_append_of_bounds pfx rest ll hlow hb]
  simp only [List.length_take, List.length_append]
  omega

theorem findLitClass_model (lit : Str) (bad : List Char) (n : Nat) (text m : Str)
    (h : findLitClass lit bad n text = some m)
    (hb : litBoundsOk (lowL lit) = true) (k : Nat) :
    min k lit.length ≤ ((jsTrim m).take k).length := by
  obtain ⟨s, hs⟩ := scanFirst_some _ text m h
  unfold litClassAt at hs
  by_cases hci : ciStarts lit s = true
  · rw [if_pos hci] at hs
    obtain ⟨hlow, hlen⟩ := ciStarts_parts lit s hci
    have := trimTake_len (s.take lit.length)
      (takeUpTo n (fun c => !bad.contains c) (s.drop lit.length)) (lowL lit) k hlow hb
    rw [hlen] at this
    have hm : m = s.take lit.length ++
        takeUpTo n (fun c => !bad.contains c) (s.drop lit.length) := by
      injection hs with h'; exact h'.symm
    rw [hm]
    exact this
  · rw [if_neg hci] at hs; cases hs


theorem geminiNumAt_model (s m : Str) (h : geminiNumAt s = some m) (k : Nat) :
    min k 6 ≤ ((jsTrim m).take k).length := by
  unfold geminiNumAt at h
  by_cases hci : (ciStarts ("gemini".toList) s && sepDigitsOk (s.drop 6)) = true
  · rw [if_pos hci] at h
    injection h with hm
    rw [Bool.and_eq_true] at hci
    obtain ⟨hlow, hlen⟩ := ciStarts_parts ("gemini".toList) s hci.1
    have e6 : ("gemini".toList).length = 6 := rfl
    rw [e6] at hlow hlen
    have := trimTake_len (s.take 6) (sepDigitsTail (s.drop 6))
      (lowL ("gemini".toList)) k hlow (by decide)
    rw [hlen] at this
    rw [← hm]
    exact this
  · rw [if_neg hci] at h; cases h

theorem gptNumAt_model (s m : Str) (h : gptNumAt s = some m) (k : Nat) :
    min k 4 ≤ ((jsTrim m).take k).length := by
  unfold gptNumAt at h
  by_cases hci : (ciStarts ("gpt-".toList) s && digitsStartOk (s.drop 4)) = true
  · rw [if_pos hci] at h
    injection h with hm
    rw [Bool.and_eq_true] at hci
    obtain ⟨hlow, hlen⟩ := ciStarts_parts ("gpt-".toList) s hci.1
    have e4 : ("gpt-".toList).length = 4 := rfl
    rw [e4] at hlow hlen
    have := trimTake_len (s.take 4)
      ((s.drop 4).takeWhile digitDot ++ takeUpTo 25 notNlComma ((s.drop 4).dropWhile digitDot))
      (lowL ("gpt-".toList)) k hlow (by decide)
    rw [hlen] at this
    rw [← hm]
    exact this
  · rw [if_neg hci] at h; cases h

theorem orEval_shape (t : Str) (r : CandidateResult) (h : orEval t = some r) :
    3 < r.model.length ∧ r.score = [] := by
  unfold orEval at h
  rw [Option.map_eq_some'] at h
  obtain ⟨m, hm, hr⟩ := h
  subst hr
  refine ⟨?_, rfl⟩
  show 3 < ((jsTrim m).take 35).length
  cases hg : scanFirst geminiNumAt t with
  | some m1 =>
    rw [hg] at hm
    change some m1 = some m at hm
    injection hm with hm
    obtain ⟨s, hs⟩ := scanFirst_some geminiNumAt t m1 hg
    have := geminiNumAt_model s m1 hs 35
    rw [hm] at this
    omega
  | none =>
    rw [hg] at hm
    change (match findLitClass ("claude".toList) nlc 30 t with
      | some m => some m
      | none =>
        match scanFirst gptNumAt t with
        | some m => some m
        | none =>
          match findLitClass ("flux".toList) nlc 20 t with
          | some m => some m
          | none =>
            match findLitClass ("dall-e".toList) nlc 15 t with
            | some m => some m
            | none => findLitClass ("midjourney".toList) nlc 15 t) = some m at hm
    cases hc : findLitClass ("claude".toList) nlc 30 t with
    | some m1 =>
      rw [hc] at hm
      change some m1 = some m at hm
      injection hm with hm
      have := findLitClass_model ("claude".toList) nlc 30 t m1 hc (by decide) 35
      rw [show ("claude".toList).length = 6 from rfl, hm] at this
      omega
    | none =>
      rw [hc] at hm
      change (match scanFirst gptNumAt t with
        | some m => some m
        | none =>
          match findLitClass ("flux".toList) nlc 20 t with
          | some m => some m
          | none =>
            match findLitClass ("dall-e".toList) nlc 15 t with
            | some m => some m
            | none => findLitClass ("midjourney".toList) nlc 15 t) = some m at hm
      cases hgp : scanFirst gptNumAt t with
      | some m1 =>
        rw [hgp] at hm
        change some m1 = some m at hm
        injection hm with hm
        obtain ⟨s, hs⟩ := scanFirst_some gptNumAt t m1 hgp
        have := gptNumAt_model s m1 hs 35
        rw [hm] at this
        omega
      | none =>
        rw [hgp] at hm
        change (match findLitClass ("flux".toList) nlc 20 t with
          | some m => some m
          | none =>
            match findLitClass ("dall-e".toList) nlc 15 t with
            | some m => some m
            | none => findLitClass ("midjourney".toList) nlc 15 t) = some m at hm
        cases hf : findLitClass ("flux".toList) nlc 20 t with
        | some m1 =>
          rw [hf] at hm
          change some m1 = some m at hm
          injection hm with hm
          have := findLitClass_model ("flux".toList) nlc 20 t m1 hf (by decide) 35
          rw [show ("flux".toList).length = 4 from rfl, hm] at this
          omega
        | none =>
          rw [hf] at hm
          change (match findLitClass ("dall-e".toList) nlc 15 t with
            | some m => some m
            | none => findLitClass ("midjourney".toList) nlc 15 t) = some m at hm
          cases hde : findLitClass ("dall-e".toList) nlc 15 t with
          | some m1 =>
            rw [hde] at hm
            change some m1 = some m at hm
            injection hm with hm
            have := findLitClass_model ("dall-e".toList) nlc 15 t m1 hde (by decide) 35
            rw [show ("dall-e".toList).length = 6 from rfl, hm] at this
            omega
          | none =>
            rw [hde] at hm
            change findLitClass ("midjourney".toList) nlc 15 t = some m at hm
            have := findLitClass_model ("midjourney".toList) nlc 15 t m hm (by decide) 35
            rw [show ("midjourney".toList).length = 10 from rfl] at this
            omega

theorem findLitClass_decomp (lit : Str) (bad : List Char) (n : Nat) (text m : Str)
    (h : findLitClass lit bad n text = some m) :
    ∃ pfx rest, m = pfx ++ rest ∧ lowL pfx = lowL lit ∧ pfx.length = lit.length := by
  obtain ⟨s, hs⟩ := scanFirst_some _ text m h
  unfold litClassAt at hs
  by_cases hci : ciStarts lit s = true
  · rw [if_pos hci] at hs
    injection hs with hs
    obtain ⟨hlow, hlen⟩ := ciStarts_parts lit s hci
    exact ⟨s.take lit.length, _, hs.symm, hlow, hlen⟩
  · rw [if_neg hci] at hs; cases hs

theorem aaEvalLLM_shape (t : Str) (r : CandidateResult) (h : aaEvalLLM t = some r) :
    3 < r.model.length ∧ r.score = [] := by
  unfold aaEvalLLM at h
  rw [Option.map_eq_some'] at h
  obtain ⟨m, hm, hr⟩ := h
  subst hr
  refine ⟨?_, rfl⟩
  show 3 < ((jsTrim m).take 35).length
  obtain ⟨p, hp, hfind⟩ := List.exists_of_findSome?_eq_some hm
  have hall : aaLits.all (fun p => litBoundsOk (lowL p) && decide (4 ≤ p.length)) = true := by
    decide
  rw [List.all_eq_true] at hall
  have hp2 := hall p hp
  rw [Bool.and_eq_true, decide_eq_true_eq] at hp2
  have := findLitClass_model p nlc 25 t m hfind hp2.1 35
  have h4 := hp2.2
  omega

theorem aaEvalImg_shape (t : Str) (r : CandidateResult) (h : aaEvalImg t = some r) :
    3 < r.model.length ∧ r.score = [] := by
  unfold aaEvalImg at h
  rw [Option.map_eq_some'] at h
  obtain ⟨m, hm, hr⟩ := h
  subst hr
  refine ⟨?_, rfl⟩
  show 3 < ((jsTrim m).take 35).length
  obtain ⟨p, hp, hfind⟩ := List.exists_of_findSome?_eq_some hm
  have hall : aaImgLits.all (fun p => litBoundsOk (lowL p) && decide (4 ≤ p.length)) = true := by
    decide
  rw [List.all_eq_true] at hall
  have hp2 := hall p hp
  rw [Bool.and_eq_true, decide_eq_true_eq] at hp2
  have := findLitClass_model p nlc 20 t m hfind hp2.1 35
  have h4 := hp2.2
  omega

theorem subTrig_app (trig : Str) :
    ∀ pfx : Str, pfx.length ≤ trig.length →
      (∀ j, j < pfx.length → startsL ((lowL pfx).drop j) (lowL trig) = false) →
      ∀ t, subTrigAux trig (pfx ++ t) = pfx ++ subTrigAux trig t := by
  intro pfx
  induction pfx with
  | nil => intro _ _ t; simp
  | cons c p' ih =>
    intro hlen h t
    have hcond : ciStarts trig ((c :: p') ++ t) = false := by
      cases hx : ciStarts trig ((c :: p') ++ t) with
      | false => rfl
      | true =>
        exfalso
        unfold ciStarts at hx
        have hmap : lowL ((c :: p') ++ t) = lowL (c :: p') ++ lowL t := by
          simp [lowL]
        rw [hmap] at hx
        have hle : (lowL (c :: p')).length ≤ (lowL trig).length := by
          simp only [lowL, List.length_map]
          simpa using hlen
        have := startsL_of_append (lowL (c :: p')) (lowL trig) (lowL t) hx hle
        have h0 := h 0 (by simp)
        simp only [List.drop_zero] at h0
        rw [h0] at this
        cases this
    rw [List.cons_append, subTrigAux, ← List.cons_append, hcond]
    simp only [Bool.false_and, Bool.false_eq_true, if_false]
    rw [List.cons_append]
    rw [ih (by simpa using Nat.le_of_succ_le hlen)
      (fun j hj => by
        have := h (j + 1) (by simpa using Nat.succ_lt_succ hj)
        simpa [lowL] using this) t]

theorem pipeCut_app (pfx : Str) (c1 : Char) (p1 : Str)
    (hrev : pfx.reverse = c1 :: p1) (hw : isWsC c1 = false)
    (hnp : ∀ b ∈ pfx, (b == '|') = false) (t : Str) :
    ∃ u, pipeCut (pfx ++ t) = pfx ++ u := by
  unfold pipeCut
  cases hc : (pfx ++ t).contains '|' with
  | false =>
    refine ⟨t, ?_⟩
    rw [if_neg (by simp [hc])]
  | true =>
    rw [if_pos (by simp [hc])]
    have htw : (pfx ++ t).takeWhile (fun c => c ≠ '|') =
        pfx ++ t.takeWhile (fun c => c ≠ '|') := by
      apply takeWhile_append_all
      intro b hb
      have hbp := hnp b hb
      have : b ≠ '|' := by
        intro hbe
        rw [hbe] at hbp
        simp at hbp
      simp [this]
    rw [htw, dropRightWhile_append isWsC pfx _ c1 p1 hrev hw]
    exact ⟨_, rfl⟩

theorem litCleanOk_elim (ll : Str) (hok : litCleanOk ll = true) :
    ∃ c cr d dr, ll = c :: cr ∧ ll.reverse = d :: dr ∧ isWsC c = false ∧
      isWsC d = false ∧ (d = '—' || d = '-' || d = '|') = false ∧
      (ll.any (fun b => b == '|')) = false ∧ ll.length ≤ 20 ∧
      (∀ j, j < ll.length → startsL (ll.drop j) (lowL trigA) = false) ∧
      (∀ j, j < ll.length → startsL (ll.drop j) (lowL trigB) = false) := by
  unfold litCleanOk at hok
  simp only [Bool.and_eq_true, Bool.not_eq_true', decide_eq_true_eq,
    List.all_eq_true, List.mem_range] at hok
  obtain ⟨⟨⟨⟨⟨⟨⟨h0, h1⟩, h2⟩, h3⟩, h4⟩, h5⟩, h6⟩, h7⟩ := hok
  cases hll : ll with
  | nil => rw [hll] at h0; simp at h0
  | cons c cr =>
    cases hlr : (c :: cr).reverse with
    | nil => simp at hlr
    | cons d dr =>
      subst hll
      rw [hlr] at h2 h3
      refine ⟨c, cr, d, dr, rfl, by simp [hlr], ?_, ?_, ?_, h4, h5, ?_, ?_⟩
      · simpa using h1
      · simpa using h2
      · simpa using h3
      · intro j hj
        have := h6 j hj
        simpa using this
      · intro j hj
        have := h7 j hj
        simpa using this

theorem clean_len_ge (pfx rest ll : Str) (hlow : lowL pfx = ll)
    (hok : litCleanOk ll = true) :
    pfx.length ≤ (cleanModelName (pfx ++ rest)).length := by
  obtain ⟨c, cr, d, dr, hll, hlr, hwc, hwd, hmk, hany, h20, hjA, hjB⟩ :=
    litCleanOk_elim ll hok
  obtain ⟨c0, p0, hp, hc0⟩ := lowL_head_parts pfx ll hlow c cr hll
  obtain ⟨c1, p1, hrev, hc1⟩ := lowL_rev_parts pfx ll hlow d dr hlr
  have hwc0 : isWsC c0 = false := notWs_of_lower c0 c hc0 hwc
  have hwc1 : isWsC c1 = false := notWs_of_lower c1 d hc1 hwd
  have hmk1 : (c1 = '—' || c1 = '-' || c1 = '|') = false := notMark_of_lower c1 d hc1 hmk
  have hplen : pfx.length = ll.length := by
    have := congrArg List.length hlow
    simpa [lowL] using this
  have hnp : ∀ b ∈ pfx, (b == '|') = false := by
    intro b hb
    cases hx : (b == '|') with
    | false => rfl
    | true =>
      exfalso
      have hb' : b = '|' := by simpa using hx
      subst hb'
      have hmem : ('|' : Char).toLower ∈ lowL pfx := List.mem_map_of_mem Char.toLower hb
      rw [hlow] at hmem
      have hmem' : ('|' : Char) ∈ ll := by
        simpa [show ('|' : Char).toLower = '|' from by decide] using hmem
      have : ll.any (fun b => b == '|') = true := by
        rw [List.any_eq_true]
        exact ⟨'|', hmem', by simp⟩
      rw [hany] at this
      cases this
  have hjA' : ∀ j, j < pfx.length → startsL ((lowL pfx).drop j) (lowL trigA) = false := by
    intro j hj
    rw [hlow]
    exact hjA j (by omega)
  have hjB' : ∀ j, j < pfx.length → startsL ((lowL pfx).drop j) (lowL trigB) = false := by
    intro j hj
    rw [hlow]
    exact hjB j (by omega)
  have hlenA : pfx.length ≤ trigA.length := by
    have : trigA.length = 22 := rfl
    omega
  have hlenB : pfx.length ≤ trigB.length := by
    have : trigB.length = 20 := rfl
    omega
  rw [cleanModelName]
  rw [if_neg (by rw [hp]; simp)]
  show pfx.length ≤ ((pyStrip (rstripMark (pyStrip (pipeCut (subTrigAux trigB
    (subTrigAux trigA (pfx ++ rest))))))).take 40).length
  rw [subTrig_app trigA pfx hlenA hjA' rest]
  rw [subTrig_app trigB pfx hlenB hjB' (subTrigAux trigA rest)]
  obtain ⟨u3, hu3⟩ := pipeCut_app pfx c1 p1 hrev hwc1 hnp
    (subTrigAux trigB (subTrigAux trigA rest))
  rw [hu3]
  have hps1 : pyStrip (pfx ++ u3) = pfx ++ dropRightWhileC isWsC u3 :=
    trimlike_append pfx u3 c0 p0 hp hwc0 c1 p1 hrev hwc1
  rw [hps1]
  have hrs : rstripMark (pfx ++ dropRightWhileC isWsC u3) =
      pfx ++ rstripMark (dropRightWhileC isWsC u3) :=
    dropRightWhile_append _ pfx _ c1 p1 hrev (by simpa using hmk1)
  rw [hrs]
  have hps2 : pyStrip (pfx ++ rstripMark (dropRightWhileC isWsC u3)) =
      pfx ++ dropRightWhileC isWsC (rstripMark (dropRightWhileC isWsC u3)) :=
    trimlike_append pfx _ c0 p0 hp hwc0 c1 p1 hrev hwc1
  rw [hps2]
  simp only [List.length_take, List.length_append]
  omega

theorem lbBestRow_model (mi ci : Nat) :
    ∀ (rows : List (List Str)) (mv : ℚ) (best : Option (Str × Str)),
      (∀ m0 sc0, best = some (m0, sc0) → m0 ≠ []) →
      ∀ m sc, lbBestRow mi ci rows mv best = some (m, sc) → m ≠ [] := by
  intro rows
  induction rows with
  | nil =>
    intro mv best hbest m sc h
    exact hbest m sc h
  | cons row rest ih =>
    intro mv best hbest m sc h
    rw [lbBestRow] at h
    split at h
    · exact ih mv best hbest m sc h
    · dsimp only at h
      split at h
      · rename_i ds mc mt hfind hline
        split at h
        · rename_i v hv
          split at h
          · refine ih _ _ ?_ m sc h
            intro m0 sc0 he
            injection he with he
            have h1 : (firstLine (jsTrim (row.getD mi []))).take 40 = m0 := by
              have := congrArg Prod.fst he
              simpa using this
            rw [← h1]
            have : firstLine (jsTrim (row.getD mi [])) = mc :: mt := hline
            rw [this]
            simp
          · exact ih mv best hbest m sc h
        · exact ih mv best hbest m sc h
      · exact ih mv best hbest m sc h

theorem lbFallbackScan_model (text : Str) (cat : String) (r : CandidateResult)
    (h : (cat, r) ∈ lbFallbackScan text) : r.model ≠ [] := by
  unfold lbFallbackScan at h
  split at h
  · rename_i name hfs
    simp only [List.mem_singleton, Prod.mk.injEq] at h
    obtain ⟨mn, hmn, hval⟩ := List.exists_of_findSome?_eq_some hfs
    have hname : name = mn := by
      by_cases hx : hasSub mn.toList text = true
      · rw [if_pos hx] at hval; injection hval with hval; exact hval.symm
      · rw [if_neg hx] at hval; cases hval
    subst hname
    rw [h.2]
    simp only [lbFallbackNames, List.mem_cons, List.not_mem_nil, or_false] at hmn
    rcases hmn with rfl | rfl | rfl <;> decide
  · simp at h

theorem livebenchExtract_model (dom : LbDom) (cat : String) (r : CandidateResult)
    (h : (cat, r) ∈ livebenchExtract dom) : r.model ≠ [] := by
  unfold livebenchExtract at h
  split at h
  · simp at h
  · split at h
    · simp at h
    · rename_i mt hfound
      split at h
      · simp at h
      · rename_i hr hhr
        dsimp only at h
        split at h
        · simp at h
        · split at h
          · exact lbFallbackScan_model dom.bodyText cat r h
          · rw [List.mem_filterMap] at h
            obtain ⟨ci, hci, hmap⟩ := h
            rw [Option.map_eq_some'] at hmap
            obtain ⟨ms, hbr, heq⟩ := hmap
            have hr2 : r = ⟨ms.1, ms.2⟩ := by
              have := congrArg Prod.snd heq
              simpa using this.symm
            rw [hr2]
            exact lbBestRow_model _ _ mt.tbodyRows (-1) none (by intro _ _ hx; cases hx)
              ms.1 ms.2 (by rw [← hbr])

/-! ## Adapter-level characterizations -/

theorem lmCat_cases (v : LmPageView) (r : CandidateResult) (h : lmCat v = r) :
    r = naMarker ∨
    ∃ dom, v.dom = Except.ok dom ∧ lmarenaEval dom = some r ∧
      2 < r.model.length := by
  unfold lmCat at h
  cases hn : v.nav with
  | error e =>
    left
    rw [hn] at h
    simp [pyTryD, Bind.bind, Except.bind] at h
    exact h.symm
  | ok u =>
    rw [hn] at h
    cases hc : v.pageContent with
    | error e =>
      left
      rw [hc] at h
      simp [pyTryD, Bind.bind, Except.bind] at h
      exact h.symm
    | ok content =>
      rw [hc] at h
      simp only [Bind.bind, Except.bind] at h
      by_cases hcl : lmCloudflare content = true
      · left
        rw [hcl] at h
        simp [pyTryD, Pure.pure, Except.pure] at h
        exact h.symm
      · rw [Bool.not_eq_true] at hcl
        rw [hcl] at h
        simp only [Bool.false_eq_true, if_false, pyTryD, Pure.pure, Except.pure] at h
        cases hd : v.dom with
        | error e =>
          left
          rw [hd] at h
          simp [pyTryD, Bind.bind, Except.bind] at h
          exact h.symm
        | ok dom =>
          rw [hd] at h
          simp only [pyTryD, Bind.bind, Except.bind, Pure.pure, Except.pure] at h
          cases he : lmarenaEval dom with
          | none =>
            left
            rw [he] at h
            exact h.symm
          | some d =>
            rw [he] at h
            change (if (!d.model.isEmpty && decide (2 < d.model.length)) = true
              then d else naMarker) = r at h
            by_cases hv : (!d.model.isEmpty && decide (2 < d.model.length)) = true
            · right
              rw [if_pos hv] at h
              rw [Bool.and_eq_true, decide_eq_true_eq] at hv
              subst h
              exact ⟨dom, rfl, he, hv.2⟩
            · left
              rw [if_neg hv] at h
              exact h.symm

theorem livebenchResults_mem (v : LbView) (cat : String) (r : CandidateResult)
    (h : (cat, r) ∈ livebenchResults v) :
    ∃ dom, v.dom = Except.ok dom ∧ (cat, r) ∈ livebenchExtract dom := by
  unfold livebenchResults at h
  cases hn : v.nav with
  | error e => rw [hn] at h; simp [pyTryD, Bind.bind, Except.bind] at h
  | ok u =>
    rw [hn] at h
    cases hs : v.scroll with
    | error e => rw [hs] at h; simp [pyTryD, Bind.bind, Except.bind] at h
    | ok u2 =>
      rw [hs] at h
      cases hd : v.dom with
      | error e => rw [hd] at h; simp [pyTryD, Bind.bind, Except.bind] at h
      | ok dom =>
        rw [hd] at h
        simp only [pyTryD, Bind.bind, Except.bind, Pure.pure, Except.pure] at h
        exact ⟨dom, rfl, h⟩

theorem orCat_some (v : OrView) (r : CandidateResult) (h : orCat v = some r) :
    ∃ t, v.bodyText = Except.ok t ∧ orEval t = some r := by
  unfold orCat at h
  cases hn : v.nav with
  | error e => rw [hn] at h; simp [pyTryD, Bind.bind, Except.bind] at h
  | ok u =>
    rw [hn] at h
    cases hb : v.bodyText with
    | error e => rw [hb] at h; simp [pyTryD, Bind.bind, Except.bind] at h
    | ok t =>
      rw [hb] at h
      simp only [pyTryD, Bind.bind, Except.bind, Pure.pure, Except.pure] at h
      exact ⟨t, rfl, h⟩

theorem aaResults_mem (v : AaView) (cat : String) (r : CandidateResult)
    (h : (cat, r) ∈ aaResults v) :
    (∃ t, v.textL = Except.ok t ∧ aaEvalLLM t = some r ∧
      (cat = "overall" ∨ cat = "coding" ∨ cat = "math")) ∨
    (∃ t, v.textI = Except.ok t ∧ aaEvalImg t = some r ∧ cat = "image") := by
  unfold aaResults aaBase aaImg at h
  rw [List.mem_append] at h
  cases h with
  | inl h =>
    left
    cases hn : v.navL with
    | error e => rw [hn] at h; simp [pyTryD, Bind.bind, Except.bind] at h
    | ok u =>
      rw [hn] at h
      cases ht : v.textL with
      | error e => rw [ht] at h; simp [pyTryD, Bind.bind, Except.bind] at h
      | ok t =>
        rw [ht] at h
        simp only [pyTryD, Bind.bind, Except.bind, Pure.pure, Except.pure] at h
        cases he : aaEvalLLM t with
        | none => rw [he] at h; simp at h
        | some d =>
          rw [he] at h
          simp only [List.mem_cons, List.not_mem_nil, or_false,
            Prod.mk.injEq] at h
          rcases h with ⟨h1, h2⟩ | ⟨h1, h2⟩ | ⟨h1, h2⟩ <;>
            exact ⟨t, rfl, by rw [he, h2], by simp [h1]⟩
  | inr h =>
    right
    cases hn : v.navI with
    | error e => rw [hn] at h; simp [pyTryD, Bind.bind, Except.bind] at h
    | ok u =>
      rw [hn] at h
      cases ht : v.textI with
      | error e => rw [ht] at h; simp [pyTryD, Bind.bind, Except.bind] at h
      | ok t =>
        rw [ht] at h
        simp only [pyTryD, Bind.bind, Except.bind, Pure.pure, Except.pure] at h
        cases he : aaEvalImg t with
        | none => rw [he] at h; simp at h
        | some d =>
          rw [he] at h
          simp only [List.mem_singleton, Prod.mk.injEq] at h
          exact ⟨t, rfl, by rw [he, h.2], h.1⟩

theorem lsCat_shape (cat : String) (v : ReqView) (r : CandidateResult)
    (h : lsCat cat v = some r) :
    ∃ st text p m, v.resp = Except.ok (st, text) ∧ st = 200 ∧
      p ∈ (if cat = "image" then lsLitsImg else lsLitsLLM) ∧
      findLitClass p lsBad 20 text = some m ∧ r = ⟨cleanModelName m, []⟩ := by
  unfold lsCat at h
  cases hresp : v.resp with
  | error e => rw [hresp] at h; simp [pyTryD, Bind.bind, Except.bind] at h
  | ok st =>
    rw [hresp] at h
    simp only [pyTryD, Bind.bind, Except.bind, Pure.pure, Except.pure] at h
    by_cases h200 : st.1 = 200
    · rw [if_pos h200] at h
      rw [Option.map_eq_some'] at h
      obtain ⟨m, hm, hr⟩ := h
      obtain ⟨p, hp, hfind⟩ := List.exists_of_findSome?_eq_some hm
      exact ⟨st.1, st.2, p, m, rfl, h200, hp, hfind, hr.symm⟩
    · rw [if_neg h200] at h
      cases h

/-! ## Run-level characterizations -/

theorem run_ok_eq (env : Env) (snap : Snapshot) (h : run env = Except.ok snap) :
    snap = runSnapshot env := by
  unfold run at h
  cases hl : env.launch with
  | error e => rw [hl] at h; simp [Bind.bind, Except.bind] at h
  | ok u1 =>
    rw [hl] at h
    cases hnp : env.newPage with
    | error e => rw [hnp] at h; simp [Bind.bind, Except.bind] at h
    | ok u2 =>
      rw [hnp] at h
      cases hcb : env.closeBrowser with
      | error e =>
        rw [hcb] at h
        simp [Bind.bind, Except.bind, scrape_lmarena, scrape_livebench,
          scrape_openrouter, scrape_artificial_analysis, scrape_llm_stats] at h
      | ok u3 =>
        rw [hcb] at h
        simp only [Bind.bind, Except.bind, scrape_lmarena, scrape_livebench,
          scrape_openrouter, scrape_artificial_analysis, scrape_llm_stats,
          Pure.pure, Except.pure] at h
        injection h with h
        rw [← h]
        rfl

theorem snapshot_mem (env : Env) (snap : Snapshot) (src : String) (cm : ResMap)
    (h : run env = Except.ok snap) (hm : (src, cm) ∈ snap) :
    (src = "lmarena" ∧ cm = lmarenaResults env.lmarena) ∨
    (src = "livebench" ∧ cm = livebenchResults env.livebench) ∨
    (src = "openrouter" ∧ cm = openrouterResults env.openrouter) ∨
    (src = "artificial_analysis" ∧ cm = aaResults env.aa) ∨
    (src = "llm_stats" ∧ cm = llmStatsResults env.llmStats) := by
  rw [run_ok_eq env snap h] at hm
  unfold runSnapshot at hm
  simp only [List.mem_cons, List.not_mem_nil, or_false, Prod.mk.injEq] at hm
  tauto

theorem lmarenaResults_mem (vs : String → LmPageView) (cat : String)
    (r : CandidateResult) (h : (cat, r) ∈ lmarenaResults vs) :
    lmCat (vs cat) = r := by
  unfold lmarenaResults at h
  rw [List.mem_map] at h
  obtain ⟨n, _, hn⟩ := h
  injection hn with h1 h2
  rw [h1] at h2
  exact h2

theorem openrouterResults_mem (vs : String → OrView) (cat : String)
    (r : CandidateResult) (h : (cat, r) ∈ openrouterResults vs) :
    orCat (vs cat) = some r := by
  unfold openrouterResults at h
  rw [List.mem_filterMap] at h
  obtain ⟨c, _, hc⟩ := h
  rw [Option.map_eq_some'] at hc
  obtain ⟨d, hd, he⟩ := hc
  injection he with h1 h2
  rw [← h1, hd, h2]

theorem llmStatsResults_mem (vs : String → ReqView) (cat : String)
    (r : CandidateResult) (h : (cat, r) ∈ llmStatsResults vs) :
    lsCat cat (vs cat) = some r := by
  unfold llmStatsResults at h
  rw [List.mem_filterMap] at h
  obtain ⟨c, _, hc⟩ := h
  rw [Option.map_eq_some'] at hc
  obtain ⟨d, hd, he⟩ := hc
  injection he with h1 h2
  rw [← h1, hd, h2]

theorem lsModel_len (cat : String) (p m text : Str)
    (hp : p ∈ (if cat = "image" then lsLitsImg else lsLitsLLM))
    (hfind : findLitClass p lsBad 20 text = some m) :
    3 < (cleanModelName m).length := by
  obtain ⟨pfx, rest, hm, hlow, hlen⟩ := findLitClass_decomp p lsBad 20 text m hfind
  have hall : (lsLitsLLM ++ lsLitsImg).all
      (fun p => litCleanOk (lowL p) && decide (4 ≤ p.length)) = true := by decide
  rw [List.all_eq_true] at hall
  have hp' : p ∈ lsLitsLLM ++ lsLitsImg := by
    rw [List.mem_append]
    by_cases hc : cat = "image"
    · rw [if_pos hc] at hp; exact Or.inr hp
    · rw [if_neg hc] at hp; exact Or.inl hp
  have h2 := hall p hp'
  rw [Bool.and_eq_true, decide_eq_true_eq] at h2
  have := clean_len_ge pfx rest (lowL p) hlow h2.1
  rw [hm]
  have h4 := h2.2
  omega

theorem aaBase_shape (v : AaView) :
    aaBase v = [] ∨
    ∃ d, aaBase v = [("overall", d), ("coding", d), ("math", d)] := by
  unfold aaBase
  cases hn : v.navL with
  | error e => left; simp [pyTryD, Bind.bind, Except.bind]
  | ok u =>
    cases ht : v.textL with
    | error e => left; simp [pyTryD, Bind.bind, Except.bind]
    | ok t =>
      simp only [pyTryD, Bind.bind, Except.bind, Pure.pure, Except.pure]
      cases he : aaEvalLLM t with
      | none => left; rfl
      | some d => right; exact ⟨d, rfl⟩

theorem aaImg_shape (v : AaView) :
    aaImg v = [] ∨ ∃ d, aaImg v = [("image", d)] := by
  unfold aaImg
  cases hn : v.navI with
  | error e => left; simp [pyTryD, Bind.bind, Except.bind]
  | ok u =>
    cases ht : v.textI with
    | error e => left; simp [pyTryD, Bind.bind, Except.bind]
    | ok t =>
      simp only [pyTryD, Bind.bind, Except.bind, Pure.pure, Except.pure]
      cases he : aaEvalImg t with
      | none => left; rfl
      | some d => right; exact ⟨d, rfl⟩

/-- Central helper: every entry the aggregation records is well formed — a
nonempty model, and the value is the marker, a LiveBench fallback entry, or
a result the source's own extraction produced. -/
theorem stored_entry_shape (env : Env) (snap : Snapshot) (h : run env = Except.ok snap)
    (src : String) (cm : ResMap) (hsrc : (src, cm) ∈ snap)
    (cat : String) (r : CandidateResult) (hcat : (cat, r) ∈ cm) :
    r.model ≠ [] ∧
      (r = naMarker ∨ r ∈ lbFallbackCands ∨ adapterExtracted env src cat r) := by
  rcases snapshot_mem env snap src cm h hsrc with
    ⟨hs, hcm⟩ | ⟨hs, hcm⟩ | ⟨hs, hcm⟩ | ⟨hs, hcm⟩ | ⟨hs, hcm⟩
  · subst hcm
    have hr := lmarenaResults_mem env.lmarena cat r hcat
    rcases lmCat_cases (env.lmarena cat) r hr with hna | ⟨dom, hdom, heval, hlen⟩
    · subst hna
      exact ⟨by decide, Or.inl rfl⟩
    · refine ⟨?_, Or.inr (Or.inr (Or.inl ⟨hs, dom, hdom, heval, hlen⟩))⟩
      have : 0 < r.model.length := by omega
      exact List.ne_nil_of_length_pos this
  · subst hcm
    obtain ⟨dom, hdom, hmem⟩ := livebenchResults_mem env.livebench cat r hcat
    exact ⟨livebenchExtract_model dom cat r hmem,
      Or.inr (Or.inr (Or.inr (Or.inl ⟨hs, dom, hdom, hmem⟩)))⟩
  · subst hcm
    have hr := openrouterResults_mem env.openrouter cat r hcat
    obtain ⟨t, ht, heval⟩ := orCat_some (env.openrouter cat) r hr
    obtain ⟨hlen, _⟩ := orEval_shape t r heval
    refine ⟨List.ne_nil_of_length_pos (by omega),
      Or.inr (Or.inr (Or.inr (Or.inr (Or.inl ⟨hs, t, ht, heval⟩))))⟩
  · subst hcm
    rcases aaResults_mem env.aa cat r hcat with ⟨t, ht, heval, _⟩ | ⟨t, ht, heval, _⟩
    · obtain ⟨hlen, _⟩ := aaEvalLLM_shape t r heval
      refine ⟨List.ne_nil_of_length_pos (by omega),
        Or.inr (Or.inr (Or.inr (Or.inr (Or.inr (Or.inl
          ⟨hs, t, Or.inl ⟨ht, heval⟩⟩)))))⟩
    · obtain ⟨hlen, _⟩ := aaEvalImg_shape t r heval
      refine ⟨List.ne_nil_of_length_pos (by omega),
        Or.inr (Or.inr (Or.inr (Or.inr (Or.inr (Or.inl
          ⟨hs, t, Or.inr ⟨ht, heval⟩⟩)))))⟩
  · subst hcm
    have hr := llmStatsResults_mem env.llmStats cat r hcat
    obtain ⟨st, text, p, m, hresp, h200, hp, hfind, hrr⟩ := lsCat_shape cat (env.llmStats cat) r hr
    have hlen := lsModel_len cat p m text hp hfind
    constructor
    · rw [hrr]
      exact List.ne_nil_of_length_pos (by simpa using (by omega : 0 < (cleanModelName m).length))
    · exact Or.inr (Or.inr (Or.inr (Or.inr (Or.inr (Or.inr
        ⟨hs, st, text, p, m, hresp, h200, hp, hfind, hrr⟩)))))

theorem run_ok_of (env : Env) (hl : env.launch = Except.ok ())
    (hnp : env.newPage = Except.ok ()) (hcb : env.closeBrowser = Except.ok ()) :
    run env = Except.ok (runSnapshot env) := by
  unfold run
  rw [hl, hnp, hcb]
  simp [Bind.bind, Except.bind, scrape_lmarena, scrape_livebench, scrape_openrouter,
    scrape_artificial_analysis, scrape_llm_stats, Pure.pure, Except.pure, runSnapshot]

/-! ## The claims -/

/-- Claim C1 (code bug evidence): the Presenter's `cell` helper does not
escape markup-special characters — a model `"<script>alert(1)</script>"` is
interpolated verbatim into the emitted `<td>`, so it appears as active
markup, contradicting the sanitization contract the specification states. -/
theorem c1_cell_unescaped :
    cell [("text", ⟨"<script>alert(1)</script>".toList, []⟩)] ("text") =
      ("<td><span class=\"model default\"><script>alert(1)</script></span></td>").toList ∧
    hasSub ("<script>".toList)
      (cell [("text", ⟨"<script>alert(1)</script>".toList, []⟩)] ("text")) = true := by
  exact ⟨by decide, by decide⟩

/-- Claim C2: every value the aggregation step records for a
(source, category) pair is the source's own validated/extracted result, a
LiveBench fallback entry, or the `"—"` marker; it is a well-formed
`CandidateResult` (never null) and its model is never the empty string. -/
theorem c2_recorded_values (env : Env) (snap : Snapshot)
    (h : run env = Except.ok snap) (src : String) (cm : ResMap)
    (hsrc : (src, cm) ∈ snap) (cat : String) (r : CandidateResult)
    (hcat : (cat, r) ∈ cm) :
    r.model ≠ [] ∧
      (r = naMarker ∨ r ∈ lbFallbackCands ∨ adapterExtracted env src cat r) :=
  stored_entry_shape env snap h src cm hsrc cat r hcat

theorem c2_recorded_values_witness :
    naMarker.model ≠ [] ∧
      (naMarker = naMarker ∨ naMarker ∈ lbFallbackCands ∨
        adapterExtracted envFail ("lmarena") ("text") naMarker) :=
  c2_recorded_values envFail snapFail rfl ("lmarena")
    (lmCats.map (fun n => (n, naMarker))) (by decide) ("text") naMarker (by decide)

/-- Claim C3: for every `CandidateResult` stored in the snapshot, the model
is either the sentinel marker the code spells `"—"` or a nonempty extracted
name; the empty string is never stored as a model. -/
theorem c3_model_never_empty (env : Env) (snap : Snapshot)
    (h : run env = Except.ok snap) (src : String) (cm : ResMap)
    (hsrc : (src, cm) ∈ snap) (cat : String) (r : CandidateResult)
    (hcat : (cat, r) ∈ cm) :
    r.model ≠ [] :=
  (stored_entry_shape env snap h src cm hsrc cat r hcat).1

theorem c3_model_never_empty_witness : naMarker.model ≠ [] :=
  c3_model_never_empty envFail snapFail rfl ("lmarena")
    (lmCats.map (fun n => (n, naMarker))) (by decide) ("text") naMarker (by decide)

/-- Claim C4: no source adapter ever raises past its own boundary — each
returns a result mapping for every behaviour of the underlying page and
network calls — and whenever `run` returns a snapshot, every source's key
is bound to its adapter's complete mapping, so one adapter failing for
every category leaves the other sources' results intact. -/
theorem c4_adapters_never_raise :
    (∀ vs, ∃ m, scrape_lmarena vs = Except.ok m) ∧
    (∀ v, ∃ m, scrape_livebench v = Except.ok m) ∧
    (∀ vs, ∃ m, scrape_openrouter vs = Except.ok m) ∧
    (∀ v, ∃ m, scrape_artificial_analysis v = Except.ok m) ∧
    (∀ vs, ∃ m, scrape_llm_stats vs = Except.ok m) ∧
    (∀ env snap, run env = Except.ok snap →
      alook snap ("lmarena") = some (lmarenaResults env.lmarena) ∧
      alook snap ("livebench") = some (livebenchResults env.livebench) ∧
      alook snap ("openrouter") = some (openrouterResults env.openrouter) ∧
      alook snap ("artificial_analysis") = some (aaResults env.aa) ∧
      alook snap ("llm_stats") = some (llmStatsResults env.llmStats)) := by
  refine ⟨fun vs => ⟨_, rfl⟩, fun v => ⟨_, rfl⟩, fun vs => ⟨_, rfl⟩,
    fun v => ⟨_, rfl⟩, fun vs => ⟨_, rfl⟩, ?_⟩
  intro env snap h
  rw [run_ok_eq env snap h]
  exact ⟨rfl, rfl, rfl, rfl, rfl⟩

theorem c4_adapters_never_raise_witness :
    alook snapFail ("lmarena") = some (lmarenaResults envFail.lmarena) ∧
    alook snapFail ("livebench") = some (livebenchResults envFail.livebench) ∧
    alook snapFail ("openrouter") = some (openrouterResults envFail.openrouter) ∧
    alook snapFail ("artificial_analysis") = some (aaResults envFail.aa) ∧
    alook snapFail ("llm_stats") = some (llmStatsResults envFail.llmStats) :=
  c4_adapters_never_raise.2.2.2.2.2 envFail snapFail rfl

/-- Claim C5: whenever the unguarded browser-lifecycle operations succeed,
`main` completes for every combination of per-source and per-category
failures, writes both output files (the JSON snapshot and the rendered
document) and exits with code 0. -/
theorem c5_main_completes (env : Env) (hl : env.launch = Except.ok ())
    (hnp : env.newPage = Except.ok ()) (hcb : env.closeBrowser = Except.ok ()) :
    mainEntry env = Except.ok
      ⟨[("output/latest_data.json", FileData.jsonData (runSnapshot env)),
        ("output/ai_leaderboard_comparison.html",
         FileData.textData (generate_html env.dateStr env.footDate (runSnapshot env)))],
       0⟩ := by
  unfold mainEntry
  rw [run_ok_of env hl hnp hcb]
  simp [Bind.bind, Except.bind, Pure.pure, Except.pure]

theorem c5_main_completes_witness :
    mainEntry envFail = Except.ok
      ⟨[("output/latest_data.json", FileData.jsonData (runSnapshot envFail)),
        ("output/ai_leaderboard_comparison.html",
         FileData.textData (generate_html envFail.dateStr envFail.footDate
           (runSnapshot envFail)))],
       0⟩ :=
  c5_main_completes envFail rfl rfl rfl

/-- Claim C6 (code bug evidence): the snapshot object `run` produces — the
object `main` serializes into the snapshot file — has exactly the five
source names as top-level keys and no generation-timestamp field; the
timestamped `self.data` dict built in `__init__` is never returned or
written. -/
theorem c6_snapshot_no_timestamp :
    run envFail = Except.ok snapFail ∧
    snapFail.map Prod.fst = runSources ∧
    (snapFail.map Prod.fst).contains "updated_at" = false ∧
    (snapFail.map Prod.fst).contains "generated_at" = false ∧
    mainEntry envFail = Except.ok
      ⟨[("output/latest_data.json", FileData.jsonData snapFail),
        ("output/ai_leaderboard_comparison.html",
         FileData.textData (generate_html [] [] snapFail))],
       0⟩ := by
  exact ⟨rfl, rfl, by decide, by decide, rfl⟩

/-- Claim C7 counterexample: the LiveBench adapter applies no length
threshold — on a page whose leaderboard table names the model `"1"`, the
candidate `{"model": "1", "score": "50"}` is stored as an accepted result
even though its model has length 1 ≤ 2. -/
theorem c7_counterexample :
    scrape_livebench lbCexV = Except.ok [("coding", ⟨"1".toList, "50".toList⟩)] ∧
    (⟨"1".toList, "50".toList⟩ : CandidateResult).model.length ≤ 2 := by
  exact ⟨by rfl, by decide⟩

/-- Claim C7 as amended: the LMArena adapter stores only the marker or a
model longer than 2 characters and accepts "Gemini 3 Pro"; the OpenRouter,
Artificial Analysis and LLM-Stats adapters only ever store models longer
than 3 characters; no such threshold exists in the LiveBench adapter. -/
theorem c7_amended :
    (∀ v r, lmCat v = r → r = naMarker ∨ 2 < r.model.length) ∧
    lmCat lmAcceptV = ⟨"Gemini 3 Pro".toList, []⟩ ∧
    (∀ vs cat r, (cat, r) ∈ openrouterResults vs → 3 < r.model.length) ∧
    (∀ v cat r, (cat, r) ∈ aaResults v → 3 < r.model.length) ∧
    (∀ vs cat r, (cat, r) ∈ llmStatsResults vs → 3 < r.model.length) := by
  refine ⟨?_, by decide, ?_, ?_, ?_⟩
  · intro v r h
    rcases lmCat_cases v r h with hna | ⟨_, _, _, hlen⟩
    · exact Or.inl hna
    · exact Or.inr hlen
  · intro vs cat r h
    obtain ⟨t, _, heval⟩ := orCat_some (vs cat) r (openrouterResults_mem vs cat r h)
    exact (orEval_shape t r heval).1
  · intro v cat r h
    rcases aaResults_mem v cat r h with ⟨t, _, heval, _⟩ | ⟨t, _, heval, _⟩
    · exact (aaEvalLLM_shape t r heval).1
    · exact (aaEvalImg_shape t r heval).1
  · intro vs cat r h
    obtain ⟨st, text, p, m, _, _, hp, hfind, hrr⟩ :=
      lsCat_shape cat (vs cat) r (llmStatsResults_mem vs cat r h)
    rw [hrr]
    exact lsModel_len cat p m text hp hfind

theorem c7_amended_witness :
    (naMarker = naMarker ∨ 2 < naMarker.model.length) ∧
    3 < (⟨"Claude Opus 9 win".toList, []⟩ : CandidateResult).model.length :=
  ⟨c7_amended.1 lmFailV naMarker rfl,
   c7_amended.2.2.1 (fun _ => orAcceptV) ("overall")
     ⟨"Claude Opus 9 win".toList, []⟩ (by decide)⟩

/-- Claim C8: the snapshot construction is deterministic — two runs whose
five adapters produce identical outputs yield identical snapshots (the
snapshot carries no timestamp at all, so they agree byte for byte). -/
theorem c8_deterministic (env1 env2 : Env) (s1 s2 : Snapshot)
    (h1 : run env1 = Except.ok s1) (h2 : run env2 = Except.ok s2)
    (e1 : scrape_lmarena env1.lmarena = scrape_lmarena env2.lmarena)
    (e2 : scrape_livebench env1.livebench = scrape_livebench env2.livebench)
    (e3 : scrape_openrouter env1.openrouter = scrape_openrouter env2.openrouter)
    (e4 : scrape_artificial_analysis env1.aa = scrape_artificial_analysis env2.aa)
    (e5 : scrape_llm_stats env1.llmStats = scrape_llm_stats env2.llmStats) :
    s1 = s2 := by
  unfold scrape_lmarena at e1
  unfold scrape_livebench at e2
  unfold scrape_openrouter at e3
  unfold scrape_artificial_analysis at e4
  unfold scrape_llm_stats at e5
  injection e1 with e1
  injection e2 with e2
  injection e3 with e3
  injection e4 with e4
  injection e5 with e5
  rw [run_ok_eq env1 s1 h1, run_ok_eq env2 s2 h2]
  unfold runSnapshot
  rw [e1, e2, e3, e4, e5]

theorem c8_deterministic_witness : snapFail = snapFail :=
  c8_deterministic envFail envFail snapFail snapFail rfl rfl rfl rfl rfl rfl rfl

/-- Claim C9: whenever the Artificial Analysis adapter's mapping contains
`overall`, it also contains `coding` and `math`, and all three are bound to
the identical `CandidateResult` (copies of the one LLM-page extraction). -/
theorem c9_aa_copies (v : AaView) (m : ResMap)
    (h : scrape_artificial_analysis v = Except.ok m) (r : CandidateResult)
    (hov : ("overall", r) ∈ m) :
    ("coding", r) ∈ m ∧ ("math", r) ∈ m := by
  have hm : m = aaResults v := by
    unfold scrape_artificial_analysis at h
    injection h with h
    exact h.symm
  subst hm
  unfold aaResults at hov ⊢
  rcases aaBase_shape v with hb | ⟨d, hb⟩
  · exfalso
    rw [hb] at hov
    rw [List.nil_append] at hov
    rcases aaImg_shape v with hi | ⟨d2, hi⟩
    · rw [hi] at hov; simp at hov
    · rw [hi] at hov
      simp only [List.mem_singleton, Prod.mk.injEq] at hov
      exact absurd hov.1 (by decide)
  · rw [hb] at hov ⊢
    rw [List.mem_append] at hov
    rcases hov with hov | hov
    · have hr : r = d := by
        simp only [List.mem_cons, List.not_mem_nil, or_false, Prod.mk.injEq] at hov
        rcases hov with ⟨_, h2⟩ | ⟨hk, h2⟩ | ⟨hk, h2⟩
        · exact h2
        · exact absurd hk (by decide)
        · exact absurd hk (by decide)
      subst hr
      constructor <;> rw [List.mem_append] <;> exact Or.inl (by simp)
    · exfalso
      rcases aaImg_shape v with hi | ⟨d2, hi⟩
      · rw [hi] at hov; simp at hov
      · rw [hi] at hov
        simp only [List.mem_singleton, Prod.mk.injEq] at hov
        exact absurd hov.1 (by decide)

theorem c9_aa_copies_witness :
    ("coding", (⟨"gpt-5.3 high".toList, []⟩ : CandidateResult)) ∈ aaResults aaAcceptV ∧
    ("math", (⟨"gpt-5.3 high".toList, []⟩ : CandidateResult)) ∈ aaResults aaAcceptV :=
  c9_aa_copies aaAcceptV (aaResults aaAcceptV) rfl ⟨"gpt-5.3 high".toList, []⟩ (by decide)

/-- Claim C10: whenever `run` returns rather than raising, the snapshot's
top-level keys are exactly the five source names, in assignment order, each
bound to a (possibly empty) per-category mapping. -/
theorem c10_run_keys (env : Env) (snap : Snapshot)
    (h : run env = Except.ok snap) :
    snap.map Prod.fst = runSources := by
  rw [run_ok_eq env snap h]
  rfl

theorem c10_run_keys_witness : snapFail.map Prod.fst = runSources :=
  c10_run_keys envFail snapFail rfl
